import Mathlib

/-!
# Hyper-V guest initialisation on arm64: `arch/arm64/hyperv/hv_init.c`

A shallow embedding of the file.  The global variables of the file form one
record `State`; every C function becomes a function on that record.  A result
of type `Option` is `none` where the C code does not return: `BUG_ON` fires,
a NULL or out-of-range array is dereferenced, or a loop does not finish within
its fuel.

What the file takes from headers and from other kernel subsystems is not part
of it and is a parameter: the named constants (`Consts`), the trap primitive,
the page allocator and the other externals (`Env`), and the outcomes of the
boot-time allocations (`BootInput`).

Machine integers are natural numbers; a value is reduced modulo `2^w` where the
C code narrows it to a `w`-bit object.  Addresses of pages handed out by the
page allocator are natural numbers and are not reduced: a page lies inside the
address space, so `addr + i` for `i < PAGE_SIZE` does not wrap.
-/

namespace HvInit

/-! ## Parameters -/

/-- Named constants used by `hv_init.c`.  Their definitions live in headers
(`asm/hyperv-tlfs.h`, `asm/page.h`, `errno-base.h`, ...) and are parameters of the
model. -/
structure Consts where
  PAGE_SIZE : Nat
  HV_HYP_PAGE_SIZE : Nat
  ENOMEM : Nat
  EINVAL : Nat
  VP_INVAL : Nat
  LINUX_VERSION_CODE : Nat
  ARCH_TIMER_USR_VCT_ACCESS_EN : Nat
  HV_STATUS_SUCCESS : Nat
  HVCALL_SET_VP_REGISTERS : Nat
  HVCALL_GET_VP_REGISTERS : Nat
  HV_HYPERCALL_FAST_BIT : Nat
  HV_HYPERCALL_REP_COUNT_1 : Nat
  HV_PARTITION_ID_SELF : Nat
  HV_VP_INDEX_SELF : Nat
  HV_REGISTER_GUEST_OSID : Nat
  HV_REGISTER_VPINDEX : Nat
  HV_REGISTER_HYPERVISOR_VERSION : Nat
  HV_REGISTER_PRIVILEGES_AND_FEATURES : Nat
  HV_REGISTER_FEATURES : Nat
  HV_REGISTER_CRASH_P0 : Nat
  HV_REGISTER_CRASH_P1 : Nat
  HV_REGISTER_CRASH_P2 : Nat
  HV_REGISTER_CRASH_P3 : Nat
  HV_REGISTER_CRASH_P4 : Nat
  HV_REGISTER_CRASH_CTL : Nat
  HV_CRASH_CTL_CRASH_NOTIFY : Nat
  HV_CRASH_CTL_CRASH_NOTIFY_MSG : Nat
  HV_STIMER_DIRECT_MODE_AVAILABLE : Nat
  HV_DEPRECATING_AEOI_RECOMMENDED : Nat

/-- One trap into the hypervisor: `hv_do_hvc(control, args...)` or
`hv_do_hvc_fast_get(control, a1, a2, a3, &output)`. -/
inductive HvCall where
  | hvc (control : Nat) (args : List Nat)
  | hvc_fast_get (control a1 a2 a3 : Nat)
  deriving DecidableEq, Repr

/-- What a trap gives back: the 64-bit status word and, for
`hv_do_hvc_fast_get`, the two halves of the 128-bit output. -/
structure HvReply where
  status : Nat
  registervaluelow : Nat
  registervaluehigh : Nat
  deriving DecidableEq, Repr

/-- The hypervisor behind the trap primitive: its reply to a call is a function
of the calls it has seen before (oldest first) and of the call itself. -/
abbrev Hypervisor := List HvCall → HvCall → HvReply

/-- Everything outside `hv_init.c` that its functions use. -/
structure Env extends Consts where
  /-- the hypervisor reached through `hv_do_hvc` and `hv_do_hvc_fast_get` -/
  hvc : Hypervisor
  /-- address returned by the k-th request to the page allocator
  (`__get_free_page`, `alloc_page` + `page_address`); `0` is failure (NULL) -/
  get_free_page : Nat → Nat
  virt_to_phys : Nat → Nat
  generate_guest_id : Nat → Nat → Nat → Nat
  panic_on_oops : Int

/-- Inputs of one `hyperv_init` run that come from the rest of the kernel. -/
structure BootInput where
  /-- the eight bytes of `acpi_gbl_FADT.hypervisor_id` -/
  hypervisor_id : List Nat
  /-- result of `num_possible_cpus()` -/
  num_possible_cpus : Nat
  /-- whether `alloc_percpu(void *)` returns a non-NULL pointer -/
  alloc_percpu_ok : Bool
  /-- whether `kmalloc_array` returns a non-NULL pointer -/
  kmalloc_array_ok : Bool
  /-- return value of `cpuhp_setup_state` -/
  cpuhp_setup_state : Int

/-- The fields of `struct pt_regs` that the file reads. -/
structure pt_regs where
  regs : Nat → Nat
  pc : Nat

/-! ## State -/

/-- The fields of `struct ms_hyperv_info` that the file writes (all `u32`). -/
structure ms_hyperv_info where
  features : Nat
  priv_high : Nat
  misc_features : Nat
  hints : Nat
  deriving DecidableEq, Repr

/-- The two dynamic allocations made by `hyperv_init`. -/
inductive Allocation where
  | pcpu_input_arg
  | vp_index
  deriving DecidableEq, Repr

/-- The global variables of `hv_init.c`, the per-CPU timer control register it
programs, and bookkeeping of its dealings with the outside: the hypercalls
issued, the number of page requests, the pages given back and the allocations
of `hyperv_init` not yet released. -/
structure State where
  hyperv_initialized : Bool
  ms_hyperv : ms_hyperv_info
  /-- variable `u32 *hv_vp_index`: `none` is NULL -/
  hv_vp_index : Option (List Nat)
  /-- variable `void __percpu **hyperv_pcpu_input_arg`: `none` is NULL, otherwise one
  pointer slot per CPU -/
  hyperv_pcpu_input_arg : Option (List Nat)
  hv_max_vp_index : Nat
  /-- the nodes of `free_list`, first node first -/
  free_list : List Nat
  /-- variable `static bool panic_reported` of `hyperv_report_panic` -/
  panic_reported : Bool
  /-- CNTKCTL_EL1 of each CPU -/
  cntkctl : Nat → Nat
  hvcalls : List HvCall
  page_requests : Nat
  pages_freed : List Nat
  outstanding : List Allocation

/-- The state at boot: zero-initialised globals, empty free list. -/
def State.boot : State where
  hyperv_initialized := false
  ms_hyperv := ⟨0, 0, 0, 0⟩
  hv_vp_index := none
  hyperv_pcpu_input_arg := none
  hv_max_vp_index := 0
  free_list := []
  panic_reported := false
  cntkctl := fun _ => 0
  hvcalls := []
  page_requests := 0
  pages_freed := []
  outstanding := []

/-! ## Kernel helpers used by the file -/

/-- Function `lower_32_bits(n)`: `(u32)(n)`. -/
def lower_32_bits (n : Nat) : Nat := n % 2 ^ 32

/-- Function `upper_32_bits(n)`: `(u32)(((n) >> 16) >> 16)`. -/
def upper_32_bits (n : Nat) : Nat := ((n / 2 ^ 16) / 2 ^ 16) % 2 ^ 32

/-- Function `strncmp(a, b, n)` on byte strings; a missing byte reads as NUL. -/
def strncmp (a b : List Nat) : Nat → Int
  | 0 => 0
  | n + 1 =>
    if a.headD 0 ≠ b.headD 0 then (a.headD 0 : Int) - (b.headD 0 : Int)
    else if a.headD 0 = 0 then 0
    else strncmp a.tail b.tail n

/-- The string literal "MsHyperV" as bytes. -/
def MsHyperV : List Nat := [77, 115, 72, 121, 112, 101, 114, 86]

/-- Function `free_page(addr)`: a zero address is ignored. -/
def free_page (addr : Nat) (s : State) : State :=
  if addr ≠ 0 then { s with pages_freed := s.pages_freed ++ [addr] } else s

/-! ## Hypercall transport -/

/-- Function `hv_do_hvc(control, args...)`: trap, returning the 64-bit status word. -/
def hv_do_hvc (E : Env) (control : Nat) (args : List Nat) (s : State) : Nat × State :=
  ((E.hvc s.hvcalls (.hvc control args)).status % 2 ^ 64,
    { s with hvcalls := s.hvcalls ++ [.hvc control args] })

/-- Function `hv_do_hvc_fast_get(control, a1, a2, a3, &output)`: trap, returning the
status word and filling `output`. -/
def hv_do_hvc_fast_get (E : Env) (control a1 a2 a3 : Nat) (s : State) :
    (Nat × (Nat × Nat)) × State :=
  (((E.hvc s.hvcalls (.hvc_fast_get control a1 a2 a3)).status % 2 ^ 64,
    ((E.hvc s.hvcalls (.hvc_fast_get control a1 a2 a3)).registervaluelow % 2 ^ 64,
     (E.hvc s.hvcalls (.hvc_fast_get control a1 a2 a3)).registervaluehigh % 2 ^ 64)),
    { s with hvcalls := s.hvcalls ++ [.hvc_fast_get control a1 a2 a3] })

/-- Function `hv_do_hypercall(control, input, output)`. -/
def hv_do_hypercall (E : Env) (control input output : Nat) (s : State) : Nat × State :=
  hv_do_hvc E control
    [if input ≠ 0 then E.virt_to_phys input else 0,
     if output ≠ 0 then E.virt_to_phys output else 0] s

/-- Function `hv_do_fast_hypercall8(code, input)`. -/
def hv_do_fast_hypercall8 (E : Env) (code input : Nat) (s : State) : Nat × State :=
  hv_do_hvc E ((code % 2 ^ 16) ||| E.HV_HYPERCALL_FAST_BIT) [input % 2 ^ 64] s

/-- Function `hv_set_vpreg(msr, value)`; `none` when `BUG_ON` fires.  `status.status` is
the low 16 bits of the status word. -/
def hv_set_vpreg (E : Env) (msr value : Nat) (s : State) : Option State :=
  if (hv_do_hvc E
        (E.HVCALL_SET_VP_REGISTERS ||| E.HV_HYPERCALL_FAST_BIT ||| E.HV_HYPERCALL_REP_COUNT_1)
        [E.HV_PARTITION_ID_SELF, E.HV_VP_INDEX_SELF, msr % 2 ^ 32, 0, value % 2 ^ 64, 0]
        s).1 % 2 ^ 16 ≠ E.HV_STATUS_SUCCESS then none
  else some (hv_do_hvc E
        (E.HVCALL_SET_VP_REGISTERS ||| E.HV_HYPERCALL_FAST_BIT ||| E.HV_HYPERCALL_REP_COUNT_1)
        [E.HV_PARTITION_ID_SELF, E.HV_VP_INDEX_SELF, msr % 2 ^ 32, 0, value % 2 ^ 64, 0]
        s).2

/-- Function `hv_get_vpreg_128(msr, result)`: both halves of the register; `none` when
`BUG_ON` fires. -/
def hv_get_vpreg_128 (E : Env) (msr : Nat) (s : State) : Option ((Nat × Nat) × State) :=
  if (hv_do_hvc_fast_get E
        (E.HVCALL_GET_VP_REGISTERS ||| E.HV_HYPERCALL_FAST_BIT ||| E.HV_HYPERCALL_REP_COUNT_1)
        E.HV_PARTITION_ID_SELF E.HV_VP_INDEX_SELF (msr % 2 ^ 32) s).1.1 % 2 ^ 16
      ≠ E.HV_STATUS_SUCCESS then none
  else some ((hv_do_hvc_fast_get E
        (E.HVCALL_GET_VP_REGISTERS ||| E.HV_HYPERCALL_FAST_BIT ||| E.HV_HYPERCALL_REP_COUNT_1)
        E.HV_PARTITION_ID_SELF E.HV_VP_INDEX_SELF (msr % 2 ^ 32) s).1.2,
      (hv_do_hvc_fast_get E
        (E.HVCALL_GET_VP_REGISTERS ||| E.HV_HYPERCALL_FAST_BIT ||| E.HV_HYPERCALL_REP_COUNT_1)
        E.HV_PARTITION_ID_SELF E.HV_VP_INDEX_SELF (msr % 2 ^ 32) s).2)

/-- Function `hv_get_vpreg(msr)`: the low 64 bits of the register; `none` when `BUG_ON`
fires. -/
def hv_get_vpreg (E : Env) (msr : Nat) (s : State) : Option (Nat × State) :=
  if (hv_do_hvc_fast_get E
        (E.HVCALL_GET_VP_REGISTERS ||| E.HV_HYPERCALL_FAST_BIT ||| E.HV_HYPERCALL_REP_COUNT_1)
        E.HV_PARTITION_ID_SELF E.HV_VP_INDEX_SELF (msr % 2 ^ 32) s).1.1 % 2 ^ 16
      ≠ E.HV_STATUS_SUCCESS then none
  else some ((hv_do_hvc_fast_get E
        (E.HVCALL_GET_VP_REGISTERS ||| E.HV_HYPERCALL_FAST_BIT ||| E.HV_HYPERCALL_REP_COUNT_1)
        E.HV_PARTITION_ID_SELF E.HV_VP_INDEX_SELF (msr % 2 ^ 32) s).1.2.1,
      (hv_do_hvc_fast_get E
        (E.HVCALL_GET_VP_REGISTERS ||| E.HV_HYPERCALL_FAST_BIT ||| E.HV_HYPERCALL_REP_COUNT_1)
        E.HV_PARTITION_ID_SELF E.HV_VP_INDEX_SELF (msr % 2 ^ 32) s).2)

/-! ## Per-CPU provisioning -/

/-- Modelled from the spec: the macro `hv_get_vp_index` of `asm/mshyperv.h` is
not part of the file; the spec has the virtual-processor index read "via a
dedicated fast register read", here `hv_get_vpreg(HV_REGISTER_VPINDEX)`. -/
def hv_get_vp_index (E : Env) (s : State) : Option (Nat × State) :=
  hv_get_vpreg E E.HV_REGISTER_VPINDEX s

/-- The part of `hv_cpu_init` after the input page is published: record the VP
index (narrowed to `u32`), raise `hv_max_vp_index`, enable EL0 access to the
virtual counter.  `none` when `hv_vp_index` is NULL or `cpu` is outside it. -/
def hv_cpu_init_vp (E : Env) (cpu msr_vp_index : Nat) (s : State) : Option (Int × State) :=
  match s.hv_vp_index with
  | none => none
  | some tbl =>
    if tbl.length ≤ cpu then none
    else
      some (0,
        { s with
          hv_vp_index := some (tbl.set cpu (msr_vp_index % 2 ^ 32))
          hv_max_vp_index :=
            if msr_vp_index > s.hv_max_vp_index then msr_vp_index % 2 ^ 32
            else s.hv_max_vp_index
          cntkctl := Function.update s.cntkctl cpu
            ((s.cntkctl cpu ||| E.ARCH_TIMER_USR_VCT_ACCESS_EN) % 2 ^ 32) })

/-- Function `hv_cpu_init(cpu)`, run on CPU `cpu` (so `smp_processor_id()` is `cpu`).
Returns `-ENOMEM` when `alloc_page` fails, `0` otherwise; `none` when a NULL or
out-of-range per-CPU array is dereferenced or `BUG_ON` fires.  The request to
the page allocator is counted whether or not it succeeds. -/
def hv_cpu_init (E : Env) (cpu : Nat) (s : State) : Option (Int × State) :=
  if E.get_free_page s.page_requests = 0 then
    some (-(E.ENOMEM : Int), { s with page_requests := s.page_requests + 1 })
  else
    match s.hyperv_pcpu_input_arg with
    | none => none
    | some slots =>
      if slots.length ≤ cpu then none
      else
        match hv_get_vp_index E
            { s with
              page_requests := s.page_requests + 1
              hyperv_pcpu_input_arg :=
                some (slots.set cpu (E.get_free_page s.page_requests)) } with
        | none => none
        | some (msr_vp_index, s1) => hv_cpu_init_vp E cpu msr_vp_index s1

/-- Function `hv_cpu_die(cpu)`, run on CPU `cpu`: clear the slot and give the page
back. -/
def hv_cpu_die (cpu : Nat) (s : State) : Option (Int × State) :=
  match s.hyperv_pcpu_input_arg with
  | none => none
  | some slots =>
    if slots.length ≤ cpu then none
    else
      some (0, free_page (slots.getD cpu 0)
        { s with hyperv_pcpu_input_arg := some (slots.set cpu 0) })

/-! ## Page pool -/

/-- The loop `for (i = 0; i < PAGE_SIZE; i += HV_HYP_PAGE_SIZE)
list_add_tail(addr + i, &free_list)`, started at `i` with free list `fl`.
`none` when the fuel runs out before the loop condition fails. -/
def carve_page (E : Env) (addr : Nat) : Nat → Nat → List Nat → Option (List Nat)
  | 0, _, _ => none
  | fuel + 1, i, fl =>
    if i < E.PAGE_SIZE then
      carve_page E addr fuel (i + E.HV_HYP_PAGE_SIZE) (fl ++ [addr + i])
    else some fl

/-- The refill branch of `hv_alloc_hyperv_page`: when the free list is empty,
take one page from the page allocator and put its chunks on the list.  The
code does not test `addr`: when `__get_free_page` fails and returns 0, the first
`list_add_tail` writes its list node at NULL and the kernel faults, so the
result is `none`. -/
def hv_refill (E : Env) (s : State) : Option State :=
  if s.free_list.isEmpty then
    if E.get_free_page s.page_requests = 0 then none
    else
      (carve_page E (E.get_free_page s.page_requests) (E.PAGE_SIZE + 1) 0 s.free_list).map
        (fun fl => { s with page_requests := s.page_requests + 1, free_list := fl })
  else some s

/-- Function `hv_alloc_hyperv_page()`: refill if empty, then unlink and return the first
node.  `none` when the refill faults on a failed page allocation, when its loop
does not finish, or when it leaves the list empty. -/
def hv_alloc_hyperv_page (E : Env) (s : State) : Option (Nat × State) :=
  match hv_refill E s with
  | none => none
  | some s1 =>
    match s1.free_list with
    | [] => none
    | hv_page :: rest => some (hv_page, { s1 with free_list := rest })

/-- Function `hv_alloc_hyperv_zeroed_page()`; the contents of memory are not part of the
state, so the `memset` leaves it as it is. -/
def hv_alloc_hyperv_zeroed_page (E : Env) (s : State) : Option (Nat × State) :=
  hv_alloc_hyperv_page E s

/-- Function `hv_free_hyperv_page(addr)`: ignore NULL, otherwise `list_add` at the
front. -/
def hv_free_hyperv_page (addr : Nat) (s : State) : State :=
  if addr = 0 then s else { s with free_list := addr :: s.free_list }

/-! ## Boot negotiation -/

/-- The last part of `hyperv_init(table)`, from the allocation of the per-CPU
input-pointer array on.  `cpuhp_setup_state` belongs to the CPU-hotplug core: its return
value is an input, and the callbacks it runs are the operations `hv_cpu_init`
and `hv_cpu_die`.  The loop over the possible CPUs leaves `VP_INVAL` in every
entry of the new table.  `hv_init_clocksource` belongs to the clocksource driver
and touches nothing of this file. -/
def hyperv_init_alloc (E : Env) (B : BootInput) (s : State) : Option (Int × State) :=
  if B.alloc_percpu_ok = false then none
  else
    let s1 : State :=
      { s with
        hyperv_pcpu_input_arg := some (List.replicate B.num_possible_cpus 0)
        outstanding := s.outstanding ++ [Allocation.pcpu_input_arg] }
    if B.kmalloc_array_ok = false then
      some (-(E.ENOMEM : Int), { s1 with hv_vp_index := none })
    else
      let s2 : State :=
        { s1 with
          hv_vp_index := some (List.replicate B.num_possible_cpus (E.VP_INVAL % 2 ^ 32))
          outstanding := s1.outstanding ++ [Allocation.vp_index] }
      if B.cpuhp_setup_state < 0 then
        some (-(E.EINVAL : Int),
          { s2 with
            outstanding := s2.outstanding.erase Allocation.vp_index
            hv_vp_index := none })
      else some (0, { s2 with hyperv_initialized := true })

/-- Function `hyperv_init(table)`.  The result is the returned `int` and the state;
`none` when a `BUG_ON` fires.  The fields of `ms_hyperv` are `u32`.  The two
`pr_info` lines print and change nothing. -/
def hyperv_init (E : Env) (B : BootInput) (s : State) : Option (Int × State) :=
  if strncmp B.hypervisor_id MsHyperV 8 ≠ 0 then some (-(E.EINVAL : Int), s)
  else
    match hv_set_vpreg E E.HV_REGISTER_GUEST_OSID
        (E.generate_guest_id 0 E.LINUX_VERSION_CODE 0) s with
    | none => none
    | some s1 =>
      match hv_get_vpreg_128 E E.HV_REGISTER_PRIVILEGES_AND_FEATURES s1 with
      | none => none
      | some (result, s2) =>
        match hv_get_vpreg_128 E E.HV_REGISTER_FEATURES
            { s2 with
              ms_hyperv :=
                { s2.ms_hyperv with
                  features := lower_32_bits result.1
                  priv_high := upper_32_bits result.1
                  misc_features := upper_32_bits result.2 } } with
        | none => none
        | some (result, s3) =>
          match hv_get_vpreg_128 E E.HV_REGISTER_HYPERVISOR_VERSION
              { s3 with
                ms_hyperv :=
                  { s3.ms_hyperv with
                    misc_features :=
                      (s3.ms_hyperv.misc_features ||| E.HV_STIMER_DIRECT_MODE_AVAILABLE)
                        % 2 ^ 32
                    hints :=
                      (lower_32_bits result.1 ||| E.HV_DEPRECATING_AEOI_RECOMMENDED)
                        % 2 ^ 32 } } with
          | none => none
          | some (_, s4) => hyperv_init_alloc E B s4

/-- Function `hyperv_cleanup()`: reset the guest OS id. -/
def hyperv_cleanup (E : Env) (s : State) : Option State :=
  hv_set_vpreg E E.HV_REGISTER_GUEST_OSID 0 s

/-- Function `hv_is_hyperv_initialized()`. -/
def hv_is_hyperv_initialized (s : State) : Bool := s.hyperv_initialized

/-! ## Crash reporting -/

/-- The six register writes of `hyperv_report_panic`, in program order. -/
def hyperv_report_panic_writes (E : Env) (regs : pt_regs) (err : Int) (guest_id : Nat)
    (s : State) : Option State :=
  (hv_set_vpreg E E.HV_REGISTER_CRASH_P0 (err % 2 ^ 64).toNat s).bind fun s0 =>
  (hv_set_vpreg E E.HV_REGISTER_CRASH_P1 guest_id s0).bind fun s1 =>
  (hv_set_vpreg E E.HV_REGISTER_CRASH_P2 regs.pc s1).bind fun s2 =>
  (hv_set_vpreg E E.HV_REGISTER_CRASH_P3 (regs.regs 0) s2).bind fun s3 =>
  (hv_set_vpreg E E.HV_REGISTER_CRASH_P4 (regs.regs 1) s3).bind fun s4 =>
  hv_set_vpreg E E.HV_REGISTER_CRASH_CTL E.HV_CRASH_CTL_CRASH_NOTIFY s4

/-- Function `hyperv_report_panic(regs, err, in_die)`; `err` is a `long` and is passed
on as a `u64`. -/
def hyperv_report_panic (E : Env) (regs : pt_regs) (err : Int) (in_die : Bool) (s : State) :
    Option State :=
  if in_die = true ∧ E.panic_on_oops = 0 then some s
  else if s.panic_reported = true then some s
  else
    match hv_get_vpreg E E.HV_REGISTER_GUEST_OSID { s with panic_reported := true } with
    | none => none
    | some (guest_id, s1) => hyperv_report_panic_writes E regs err guest_id s1

/-- Function `hyperv_report_panic_msg(pa, size)`. -/
def hyperv_report_panic_msg (E : Env) (pa size : Nat) (s : State) : Option State :=
  (hv_set_vpreg E E.HV_REGISTER_CRASH_P0 0 s).bind fun s0 =>
  (hv_set_vpreg E E.HV_REGISTER_CRASH_P1 0 s0).bind fun s1 =>
  (hv_set_vpreg E E.HV_REGISTER_CRASH_P2 0 s1).bind fun s2 =>
  (hv_set_vpreg E E.HV_REGISTER_CRASH_P3 pa s2).bind fun s3 =>
  (hv_set_vpreg E E.HV_REGISTER_CRASH_P4 size s3).bind fun s4 =>
  hv_set_vpreg E E.HV_REGISTER_CRASH_CTL
    (E.HV_CRASH_CTL_CRASH_NOTIFY ||| E.HV_CRASH_CTL_CRASH_NOTIFY_MSG) s4

/-! ## Sequences of operations -/

/-- The exported and hotplug operations of the file other than
`hyperv_init`. -/
inductive Op where
  | cpu_init (cpu : Nat)
  | cpu_die (cpu : Nat)
  | alloc_hyperv_page
  | alloc_hyperv_zeroed_page
  | free_hyperv_page (addr : Nat)
  | do_hypercall (control input output : Nat)
  | do_fast_hypercall8 (code input : Nat)
  | set_vpreg (msr value : Nat)
  | get_vpreg (msr : Nat)
  | get_vpreg_128 (msr : Nat)
  | cleanup
  | report_panic (regs : pt_regs) (err : Int) (in_die : Bool)
  | report_panic_msg (pa size : Nat)

/-- Run one operation; the value it returns is dropped. -/
def step (E : Env) : Op → State → Option State
  | .cpu_init cpu, s => (hv_cpu_init E cpu s).map Prod.snd
  | .cpu_die cpu, s => (hv_cpu_die cpu s).map Prod.snd
  | .alloc_hyperv_page, s => (hv_alloc_hyperv_page E s).map Prod.snd
  | .alloc_hyperv_zeroed_page, s => (hv_alloc_hyperv_zeroed_page E s).map Prod.snd
  | .free_hyperv_page addr, s => some (hv_free_hyperv_page addr s)
  | .do_hypercall control input output, s => some (hv_do_hypercall E control input output s).2
  | .do_fast_hypercall8 code input, s => some (hv_do_fast_hypercall8 E code input s).2
  | .set_vpreg msr value, s => hv_set_vpreg E msr value s
  | .get_vpreg msr, s => (hv_get_vpreg E msr s).map Prod.snd
  | .get_vpreg_128 msr, s => (hv_get_vpreg_128 E msr s).map Prod.snd
  | .cleanup, s => hyperv_cleanup E s
  | .report_panic regs err in_die, s => hyperv_report_panic E regs err in_die s
  | .report_panic_msg pa size, s => hyperv_report_panic_msg E pa size s

/-- The chunks of the native page at `addr`, lowest address first. -/
def page_chunks (E : Env) (addr : Nat) : List Nat :=
  (List.range' 0 (E.PAGE_SIZE / E.HV_HYP_PAGE_SIZE)).map fun t => addr + t * E.HV_HYP_PAGE_SIZE

/-- A request to the page pool. -/
inductive PoolOp where
  | alloc
  | free (addr : Nat)
  deriving DecidableEq, Repr

/-- A pool state together with the blocks its users currently hold. -/
structure PoolRun where
  st : State
  live : List Nat

/-- One pool request.  An allocation hands its block to the users; a free
takes a block the users hold back from them.  `none` when the request frees a
block that is not held, or when the allocation does not return. -/
def pool_step (E : Env) (r : PoolRun) : PoolOp → Option PoolRun
  | .alloc => (hv_alloc_hyperv_page E r.st).map fun p => ⟨p.2, p.1 :: r.live⟩
  | .free addr =>
    if addr ∈ r.live then some ⟨hv_free_hyperv_page addr r.st, r.live.erase addr⟩
    else none

/-- The blocks of a run: those held by users, then those on the free list. -/
def PoolRun.blocks (r : PoolRun) : List Nat := r.live ++ r.st.free_list

/-- Invariant of the pool: no block occurs twice among the held and the free
blocks, and each block is chunk `j` of a page the allocator has handed out. -/
def pool_inv (E : Env) (r : PoolRun) : Prop :=
  r.blocks.Nodup ∧
  ∀ b ∈ r.blocks, ∃ k j, k < r.st.page_requests ∧ j < E.PAGE_SIZE / E.HV_HYP_PAGE_SIZE ∧
    b = E.get_free_page k + j * E.HV_HYP_PAGE_SIZE

/-- Two blocks of `HV_HYP_PAGE_SIZE` bytes do not overlap. -/
def blocks_apart (E : Env) (a b : Nat) : Prop :=
  a + E.HV_HYP_PAGE_SIZE ≤ b ∨ b + E.HV_HYP_PAGE_SIZE ≤ a

/-- Block `b` is aligned to `HV_HYP_PAGE_SIZE` and lies, with all its
`HV_HYP_PAGE_SIZE` bytes, inside one of the first `n` pages handed out by the
page allocator. -/
def block_in_page (E : Env) (n b : Nat) : Prop :=
  E.HV_HYP_PAGE_SIZE ∣ b ∧
  ∃ k, k < n ∧ E.get_free_page k ≤ b ∧
    b + E.HV_HYP_PAGE_SIZE ≤ E.get_free_page k + E.PAGE_SIZE

/-- A sequence of pool requests, first request first. -/
def pool_run (E : Env) : List PoolOp → PoolRun → Option PoolRun
  | [], r => some r
  | op :: ops, r => (pool_step E r op).bind (pool_run E ops)

/-- A run of `n` successive calls of `hv_alloc_hyperv_page`. -/
def alloc_n (E : Env) : Nat → State → Option State
  | 0, s => some s
  | n + 1, s => (hv_alloc_hyperv_page E s).bind fun p => alloc_n E n p.2

/-- The trap issued by `hv_set_vpreg(msr, value)`. -/
def vpreg_set_call (E : Env) (msr value : Nat) : HvCall :=
  .hvc (E.HVCALL_SET_VP_REGISTERS ||| E.HV_HYPERCALL_FAST_BIT ||| E.HV_HYPERCALL_REP_COUNT_1)
    [E.HV_PARTITION_ID_SELF, E.HV_VP_INDEX_SELF, msr % 2 ^ 32, 0, value % 2 ^ 64, 0]

/-- The trap issued by `hv_get_vpreg(msr)` and `hv_get_vpreg_128(msr, ..)`. -/
def vpreg_get_call (E : Env) (msr : Nat) : HvCall :=
  .hvc_fast_get
    (E.HVCALL_GET_VP_REGISTERS ||| E.HV_HYPERCALL_FAST_BIT ||| E.HV_HYPERCALL_REP_COUNT_1)
    E.HV_PARTITION_ID_SELF E.HV_VP_INDEX_SELF (msr % 2 ^ 32)

/-- The 128-bit value, as two 64-bit halves (low, high), that the hypervisor
returns for register `msr` after the calls `hist`. -/
def vpreg_reply (E : Env) (hist : List HvCall) (msr : Nat) : Nat × Nat :=
  ((E.hvc hist (vpreg_get_call E msr)).registervaluelow % 2 ^ 64,
   (E.hvc hist (vpreg_get_call E msr)).registervaluehigh % 2 ^ 64)

/-- The trap by which `hyperv_init` sets the guest OS id. -/
def guest_osid_call (E : Env) : HvCall :=
  vpreg_set_call E E.HV_REGISTER_GUEST_OSID (E.generate_guest_id 0 E.LINUX_VERSION_CODE 0)

/-- The 128-bit value (low, high) the hypervisor returns for the
privileges-and-features register in a `hyperv_init` run started in `s`. -/
def privileges_and_features_reply (E : Env) (s : State) : Nat × Nat :=
  vpreg_reply E (s.hvcalls ++ [guest_osid_call E]) E.HV_REGISTER_PRIVILEGES_AND_FEATURES

/-- The 128-bit value (low, high) the hypervisor returns for the features
(hints) register in a `hyperv_init` run started in `s`. -/
def features_reply (E : Env) (s : State) : Nat × Nat :=
  vpreg_reply E
    (s.hvcalls ++
      [guest_osid_call E, vpreg_get_call E E.HV_REGISTER_PRIVILEGES_AND_FEATURES])
    E.HV_REGISTER_FEATURES

/-- The contents of `ms_hyperv` after the features-and-hints step of a
`hyperv_init` run started in `s`. -/
def negotiated_info (E : Env) (s : State) : ms_hyperv_info :=
  { s.ms_hyperv with
    features := lower_32_bits (privileges_and_features_reply E s).1
    priv_high := upper_32_bits (privileges_and_features_reply E s).1
    misc_features :=
      (upper_32_bits (privileges_and_features_reply E s).2 |||
        E.HV_STIMER_DIRECT_MODE_AVAILABLE) % 2 ^ 32
    hints :=
      (lower_32_bits (features_reply E s).1 ||| E.HV_DEPRECATING_AEOI_RECOMMENDED) % 2 ^ 32 }

/-- The 64-bit value the hypervisor returns for the VP-index register in an
`hv_cpu_init` run started in `s`. -/
def vp_index_reply (E : Env) (s : State) : Nat :=
  (vpreg_reply E s.hvcalls E.HV_REGISTER_VPINDEX).1

/-- Every hypercall returns the success status code. -/
def hypercalls_succeed (E : Env) : Prop :=
  ∀ hist c, (E.hvc hist c).status % 2 ^ 64 % 2 ^ 16 = E.HV_STATUS_SUCCESS

/-- The arguments of one `hyperv_report_panic` call. -/
structure PanicCall where
  regs : pt_regs
  err : Int
  in_die : Bool

/-- A call of `hyperv_report_panic` is gated when it comes from the die chain
and the kernel does not turn an oops into a panic. -/
def panic_gated (E : Env) (c : PanicCall) : Prop :=
  c.in_die = true ∧ E.panic_on_oops = 0

/-- A series of `hyperv_report_panic` calls, one after the other.  The result
lists, call by call, the hypercalls that call issued, and gives the final
state. -/
def report_series (E : Env) : List PanicCall → State → Option (List (List HvCall) × State)
  | [], s => some ([], s)
  | c :: cs, s =>
    match hyperv_report_panic E c.regs c.err c.in_die s with
    | none => none
    | some s1 =>
      (report_series E cs s1).map fun r => (s1.hvcalls.drop s.hvcalls.length :: r.1, r.2)

/-! ## Hypervisors and environments for concrete runs -/

/-- The value last stored under `msr` by a set-registers call, searching the
calls newest first; `(0, 0)` when there is none. -/
def mock_stored (control msr : Nat) : List HvCall → Nat × Nat
  | [] => (0, 0)
  | .hvc c [_, _, name, _, lo, hi] :: older =>
    if c = control ∧ name = msr then (lo, hi) else mock_stored control msr older
  | _ :: older => mock_stored control msr older

/-- A mock hypervisor: a set-registers call stores the value under the register
identifier, a get-registers call returns the value last stored under it; every
call answers with the success code in the low 16 bits of the status word and
`upper` above them. -/
def mock_hypervisor (K : Consts) (upper : Nat) : Hypervisor := fun hist c =>
  match c with
  | .hvc _ _ => ⟨upper * 2 ^ 16 + K.HV_STATUS_SUCCESS, 0, 0⟩
  | .hvc_fast_get _ _ _ msr =>
    ⟨upper * 2 ^ 16 + K.HV_STATUS_SUCCESS,
     (mock_stored
        (K.HVCALL_SET_VP_REGISTERS ||| K.HV_HYPERCALL_FAST_BIT ||| K.HV_HYPERCALL_REP_COUNT_1)
        msr hist.reverse).1,
     (mock_stored
        (K.HVCALL_SET_VP_REGISTERS ||| K.HV_HYPERCALL_FAST_BIT ||| K.HV_HYPERCALL_REP_COUNT_1)
        msr hist.reverse).2⟩

/-- A hypervisor that answers every call with success and the same 128-bit
value. -/
def fixed_hypervisor (K : Consts) (lo hi : Nat) : Hypervisor := fun _ _ =>
  ⟨K.HV_STATUS_SUCCESS, lo, hi⟩

/-- Values of the constants for an arm64 kernel with 64 KiB pages, as in the
Hyper-V TLFS headers. -/
def tlfs : Consts where
  PAGE_SIZE := 65536
  HV_HYP_PAGE_SIZE := 4096
  ENOMEM := 12
  EINVAL := 22
  VP_INVAL := 4294967295
  LINUX_VERSION_CODE := 328704
  ARCH_TIMER_USR_VCT_ACCESS_EN := 2
  HV_STATUS_SUCCESS := 0
  HVCALL_SET_VP_REGISTERS := 0x51
  HVCALL_GET_VP_REGISTERS := 0x50
  HV_HYPERCALL_FAST_BIT := 2 ^ 16
  HV_HYPERCALL_REP_COUNT_1 := 2 ^ 32
  HV_PARTITION_ID_SELF := 2 ^ 64 - 1
  HV_VP_INDEX_SELF := 2 ^ 32 - 2
  HV_REGISTER_GUEST_OSID := 0x00090002
  HV_REGISTER_VPINDEX := 0x00090003
  HV_REGISTER_HYPERVISOR_VERSION := 0x00000100
  HV_REGISTER_PRIVILEGES_AND_FEATURES := 0x00000200
  HV_REGISTER_FEATURES := 0x00000201
  HV_REGISTER_CRASH_P0 := 0x00000210
  HV_REGISTER_CRASH_P1 := 0x00000211
  HV_REGISTER_CRASH_P2 := 0x00000212
  HV_REGISTER_CRASH_P3 := 0x00000213
  HV_REGISTER_CRASH_P4 := 0x00000214
  HV_REGISTER_CRASH_CTL := 0x00000215
  HV_CRASH_CTL_CRASH_NOTIFY := 2 ^ 63
  HV_CRASH_CTL_CRASH_NOTIFY_MSG := 2 ^ 62
  HV_STIMER_DIRECT_MODE_AVAILABLE := 2 ^ 19
  HV_DEPRECATING_AEOI_RECOMMENDED := 2 ^ 9

/-- An environment over `tlfs` with hypervisor `H`: the k-th page request
returns the page at `(k + 1) * PAGE_SIZE`. -/
def env_with (H : Hypervisor) : Env where
  toConsts := tlfs
  hvc := H
  get_free_page := fun k => (k + 1) * 65536
  virt_to_phys := fun a => a
  generate_guest_id := fun d1 kv d2 =>
    ((0x8100 * 2 ^ 48) ||| (d1 * 2 ^ 48) ||| (kv * 2 ^ 16) ||| d2) % 2 ^ 64
  panic_on_oops := 0

/-- The environment over the mock hypervisor. -/
def mock_env : Env := env_with (mock_hypervisor tlfs 0)

/-- Register contents at a fault: pc `0x1000`, x0 `7`, x1 `9`. -/
def sample_regs : pt_regs where
  regs := fun i => if i = 0 then 7 else if i = 1 then 9 else 0
  pc := 0x1000

/-- A boot on Hyper-V with four possible CPUs in which both allocations succeed
and `cpuhp_setup_state` returns `ret`. -/
def boot_input (ret : Int) : BootInput where
  hypervisor_id := MsHyperV
  num_possible_cpus := 4
  alloc_percpu_ok := true
  kmalloc_array_ok := true
  cpuhp_setup_state := ret

/-- The environment over a hypervisor that reports raw zero for every
register. -/
def zero_env : Env := env_with (fixed_hypervisor tlfs 0 0)

/-- The state that a successful `hyperv_init` over `zero_env` reaches from
`State.boot`. -/
def booted : State :=
  { State.boot with
    hyperv_initialized := true
    ms_hyperv := ⟨0, 0, 2 ^ 19, 2 ^ 9⟩
    hv_vp_index := some [4294967295, 4294967295, 4294967295, 4294967295]
    hyperv_pcpu_input_arg := some [0, 0, 0, 0]
    hvcalls :=
      [guest_osid_call zero_env, vpreg_get_call zero_env 0x200, vpreg_get_call zero_env 0x201,
       vpreg_get_call zero_env 0x100]
    outstanding := [Allocation.pcpu_input_arg, Allocation.vp_index] }

/-- An environment whose hypervisor reports `2 ^ 32` as the VP index. -/
def wide_index_env : Env := env_with (fixed_hypervisor tlfs (2 ^ 32) 0)

/-- A state with one possible CPU, set up by `hyperv_init`, in which the highest
VP index seen so far is 5. -/
def one_cpu_state : State :=
  { State.boot with
    hv_vp_index := some [4294967295]
    hyperv_pcpu_input_arg := some [0]
    hv_max_vp_index := 5 }

/-- An environment whose hypervisor reports 7 as the VP index. -/
def index7_env : Env := env_with (fixed_hypervisor tlfs 7 0)

/-- The state `hv_cpu_init` reaches on CPU 0 from `one_cpu_state` over
`index7_env`. -/
def one_cpu_online : State :=
  { one_cpu_state with
    hv_vp_index := some [7]
    hyperv_pcpu_input_arg := some [65536]
    hv_max_vp_index := 7
    cntkctl := Function.update (fun _ => 0) 0 2
    hvcalls := [vpreg_get_call index7_env 0x00090003]
    page_requests := 1 }

/-- Four pool requests: two allocations, a free of the first block, and an
allocation that takes it again. -/
def sample_requests : List PoolOp := [.alloc, .alloc, .free 65536, .alloc]

/-- The run that `sample_requests` reaches over `mock_env` from `State.boot`:
one page taken, its first two chunks held, the other fourteen free. -/
def sample_run : PoolRun where
  st :=
    { State.boot with
      page_requests := 1
      free_list :=
        [73728, 77824, 81920, 86016, 90112, 94208, 98304, 102400, 106496, 110592, 114688,
         118784, 122880, 126976] }
  live := [65536, 69632]

/-- Two calls from the die chain, which `panic_on_oops = 0` gates. -/
def gated_calls : List PanicCall := [⟨sample_regs, 0, true⟩, ⟨sample_regs, 1, true⟩]

/-- The first call that is not gated, with error code 2. -/
def reporting_call : PanicCall := ⟨sample_regs, 2, false⟩

/-- Five later calls, with error codes 3 to 7. -/
def later_calls : List PanicCall :=
  [⟨sample_regs, 3, false⟩, ⟨sample_regs, 4, true⟩, ⟨sample_regs, 5, false⟩,
   ⟨sample_regs, 6, false⟩, ⟨sample_regs, 7, false⟩]

/-- The values written to the crash register P0 by a list of hypercalls. -/
def crash_p0_values (E : Env) (calls : List HvCall) : List Nat :=
  calls.filterMap fun c =>
    match c with
    | .hvc _ [_, _, name, _, lo, _] => if name = E.HV_REGISTER_CRASH_P0 % 2 ^ 32 then some lo else none
    | _ => none

/-! # Theorems -/

/-! ## Hypercall transport -/

/-- What `hv_set_vpreg` does, in terms of the trap it issues. -/
theorem hv_set_vpreg_eq (E : Env) (msr value : Nat) (s : State) :
    hv_set_vpreg E msr value s =
      if (E.hvc s.hvcalls (vpreg_set_call E msr value)).status % 2 ^ 64 % 2 ^ 16
          ≠ E.HV_STATUS_SUCCESS then none
      else some { s with hvcalls := s.hvcalls ++ [vpreg_set_call E msr value] } := rfl

/-- What `hv_get_vpreg_128` does, in terms of the trap it issues. -/
theorem hv_get_vpreg_128_eq (E : Env) (msr : Nat) (s : State) :
    hv_get_vpreg_128 E msr s =
      if (E.hvc s.hvcalls (vpreg_get_call E msr)).status % 2 ^ 64 % 2 ^ 16
          ≠ E.HV_STATUS_SUCCESS then none
      else some (vpreg_reply E s.hvcalls msr,
        { s with hvcalls := s.hvcalls ++ [vpreg_get_call E msr] }) := rfl

/-- What `hv_get_vpreg` does, in terms of the trap it issues. -/
theorem hv_get_vpreg_eq (E : Env) (msr : Nat) (s : State) :
    hv_get_vpreg E msr s =
      if (E.hvc s.hvcalls (vpreg_get_call E msr)).status % 2 ^ 64 % 2 ^ 16
          ≠ E.HV_STATUS_SUCCESS then none
      else some ((vpreg_reply E s.hvcalls msr).1,
        { s with hvcalls := s.hvcalls ++ [vpreg_get_call E msr] }) := rfl

/-- When every hypercall succeeds, `hv_set_vpreg` returns and has issued one trap. -/
theorem hv_set_vpreg_of_succeed {E : Env} (h : hypercalls_succeed E) (msr value : Nat)
    (s : State) :
    hv_set_vpreg E msr value s =
      some { s with hvcalls := s.hvcalls ++ [vpreg_set_call E msr value] } := by
  rw [hv_set_vpreg_eq, if_neg (not_not.mpr (h _ _))]

/-- When every hypercall succeeds, `hv_get_vpreg` returns the low half of the reply. -/
theorem hv_get_vpreg_of_succeed {E : Env} (h : hypercalls_succeed E) (msr : Nat) (s : State) :
    hv_get_vpreg E msr s =
      some ((vpreg_reply E s.hvcalls msr).1,
        { s with hvcalls := s.hvcalls ++ [vpreg_get_call E msr] }) := by
  rw [hv_get_vpreg_eq, if_neg (not_not.mpr (h _ _))]

/-- A returning `hv_set_vpreg` has issued one trap and changed nothing else. -/
theorem hv_set_vpreg_some {E : Env} {msr value : Nat} {s s1 : State}
    (h : hv_set_vpreg E msr value s = some s1) :
    s1 = { s with hvcalls := s.hvcalls ++ [vpreg_set_call E msr value] } := by
  rw [hv_set_vpreg_eq] at h
  split at h
  · exact absurd h (by simp)
  · exact (Option.some.inj h).symm

/-- A returning `hv_get_vpreg_128` has issued one trap and yields the reply. -/
theorem hv_get_vpreg_128_some {E : Env} {msr : Nat} {s s1 : State} {r : Nat × Nat}
    (h : hv_get_vpreg_128 E msr s = some (r, s1)) :
    r = vpreg_reply E s.hvcalls msr ∧
      s1 = { s with hvcalls := s.hvcalls ++ [vpreg_get_call E msr] } := by
  rw [hv_get_vpreg_128_eq] at h
  split at h
  · exact absurd h (by simp)
  · have := Option.some.inj h
    exact ⟨(congrArg Prod.fst this).symm, (congrArg Prod.snd this).symm⟩

/-- A returning `hv_get_vpreg` has issued one trap and yields the low half of the reply. -/
theorem hv_get_vpreg_some {E : Env} {msr : Nat} {s s1 : State} {v : Nat}
    (h : hv_get_vpreg E msr s = some (v, s1)) :
    v = (vpreg_reply E s.hvcalls msr).1 ∧
      s1 = { s with hvcalls := s.hvcalls ++ [vpreg_get_call E msr] } := by
  rw [hv_get_vpreg_eq] at h
  split at h
  · exact absurd h (by simp)
  · have := Option.some.inj h
    exact ⟨(congrArg Prod.fst this).symm, (congrArg Prod.snd this).symm⟩

/-- Over the mock hypervisor every hypercall returns the success code, whatever the upper bits of the status word. -/
theorem mock_succeeds (K : Consts) (upper : Nat) (E : Env) (hE : E.hvc = mock_hypervisor K upper)
    (hK : K.HV_STATUS_SUCCESS = E.HV_STATUS_SUCCESS)
    (hst : E.HV_STATUS_SUCCESS < 2 ^ 16) : hypercalls_succeed E := by
  intro hist c
  have hst1 : E.HV_STATUS_SUCCESS < 65536 := hst
  rw [hE, Nat.mod_mod_of_dvd _ (by norm_num : 2 ^ 16 ∣ 2 ^ 64)]
  cases c <;> simp [mock_hypervisor, hK, Nat.add_mod, Nat.mod_eq_of_lt hst1]

/-! ## Page pool: the refill loop and one allocation -/

/-- The refill loop, started at chunk `j` with `n` chunks to go, finishes within any fuel above `n` and appends those `n` chunks in address order. -/
theorem carve_page_eq (E : Env) (addr r : Nat) (hHV : 0 < E.HV_HYP_PAGE_SIZE)
    (hr : E.PAGE_SIZE = r * E.HV_HYP_PAGE_SIZE) :
    ∀ (n j fuel : Nat) (fl : List Nat), j + n = r → n < fuel →
      carve_page E addr fuel (j * E.HV_HYP_PAGE_SIZE) fl =
        some (fl ++ (List.range' j n).map fun t => addr + t * E.HV_HYP_PAGE_SIZE) := by
  intro n
  induction n with
  | zero =>
    intro j fuel fl hj hf
    obtain ⟨f, rfl⟩ : ∃ f, fuel = f + 1 := ⟨fuel - 1, by omega⟩
    have : ¬ j * E.HV_HYP_PAGE_SIZE < E.PAGE_SIZE := by
      rw [hr, ← hj]; simp
    simp [carve_page, this]
  | succ n ih =>
    intro j fuel fl hj hf
    obtain ⟨f, rfl⟩ : ∃ f, fuel = f + 1 := ⟨fuel - 1, by omega⟩
    have hlt : j * E.HV_HYP_PAGE_SIZE < E.PAGE_SIZE := by
      rw [hr]; exact Nat.mul_lt_mul_of_pos_right (by omega) hHV
    have hstep : j * E.HV_HYP_PAGE_SIZE + E.HV_HYP_PAGE_SIZE = (j + 1) * E.HV_HYP_PAGE_SIZE := by
      rw [Nat.succ_mul]
    rw [carve_page, if_pos hlt, hstep, ih (j + 1) f _ (by omega) (by omega)]
    simp [List.range'_succ]

/-- A native page holds at least one hypervisor page. -/
theorem ratio_pos {E : Env} (hHV : 0 < E.HV_HYP_PAGE_SIZE)
    (hdiv : E.HV_HYP_PAGE_SIZE ∣ E.PAGE_SIZE) (hPS : 0 < E.PAGE_SIZE) :
    0 < E.PAGE_SIZE / E.HV_HYP_PAGE_SIZE :=
  Nat.div_pos (Nat.le_of_dvd hPS hdiv) hHV

/-- A native page is a whole number of hypervisor pages. -/
theorem ratio_mul {E : Env} (hdiv : E.HV_HYP_PAGE_SIZE ∣ E.PAGE_SIZE) :
    E.PAGE_SIZE = E.PAGE_SIZE / E.HV_HYP_PAGE_SIZE * E.HV_HYP_PAGE_SIZE :=
  (Nat.div_mul_cancel hdiv).symm

/-- With an empty free list the refill takes one page and leaves its chunks on the list; the loop finishes within its fuel. -/
theorem hv_refill_empty {E : Env} (hHV : 0 < E.HV_HYP_PAGE_SIZE)
    (hdiv : E.HV_HYP_PAGE_SIZE ∣ E.PAGE_SIZE) (s : State) (hs : s.free_list = [])
    (hpage : E.get_free_page s.page_requests ≠ 0) :
    hv_refill E s =
      some { s with
        page_requests := s.page_requests + 1
        free_list := page_chunks E (E.get_free_page s.page_requests) } := by
  have hle : E.PAGE_SIZE / E.HV_HYP_PAGE_SIZE < E.PAGE_SIZE + 1 :=
    Nat.lt_succ_of_le (Nat.div_le_self _ _)
  have h := carve_page_eq E (E.get_free_page s.page_requests) _ hHV (ratio_mul hdiv)
    (E.PAGE_SIZE / E.HV_HYP_PAGE_SIZE) 0 (E.PAGE_SIZE + 1) [] (by omega) hle
  rw [Nat.zero_mul] at h
  unfold hv_refill
  rw [hs]
  simp [h, hpage, page_chunks]

/-- When the free list is empty and the page allocator fails, the allocation
does not return: the refill faults at NULL. -/
theorem hv_alloc_null_page {E : Env} (s : State) (hs : s.free_list = [])
    (hpage : E.get_free_page s.page_requests = 0) : hv_alloc_hyperv_page E s = none := by
  simp [hv_alloc_hyperv_page, hv_refill, hs, hpage]

/-- With a non-empty free list the refill does nothing. -/
theorem hv_refill_nonempty {E : Env} (s : State) (hs : s.free_list ≠ []) :
    hv_refill E s = some s := by
  unfold hv_refill
  cases hfl : s.free_list with
  | nil => exact absurd hfl hs
  | cons a l => simp

/-- The chunks of a page start with the page address, and there are `PAGE_SIZE / HV_HYP_PAGE_SIZE` of them. -/
theorem page_chunks_cons {E : Env} (hHV : 0 < E.HV_HYP_PAGE_SIZE)
    (hdiv : E.HV_HYP_PAGE_SIZE ∣ E.PAGE_SIZE) (hPS : 0 < E.PAGE_SIZE) (addr : Nat) :
    page_chunks E addr = addr :: (page_chunks E addr).tail
    ∧ (page_chunks E addr).length = E.PAGE_SIZE / E.HV_HYP_PAGE_SIZE := by
  have hpos := ratio_pos hHV hdiv hPS
  obtain ⟨r, hr⟩ : ∃ r, E.PAGE_SIZE / E.HV_HYP_PAGE_SIZE = r + 1 :=
    ⟨E.PAGE_SIZE / E.HV_HYP_PAGE_SIZE - 1, by omega⟩
  unfold page_chunks
  rw [hr]
  simp [List.range'_succ]

/-- An allocation from an empty free list takes one page, returns its first chunk and leaves the others free. -/
theorem hv_alloc_empty {E : Env} (hHV : 0 < E.HV_HYP_PAGE_SIZE)
    (hdiv : E.HV_HYP_PAGE_SIZE ∣ E.PAGE_SIZE) (hPS : 0 < E.PAGE_SIZE)
    (s : State) (hs : s.free_list = []) (hpage : E.get_free_page s.page_requests ≠ 0) :
    hv_alloc_hyperv_page E s =
      some (E.get_free_page s.page_requests,
        { s with
          page_requests := s.page_requests + 1
          free_list := (page_chunks E (E.get_free_page s.page_requests)).tail }) := by
  unfold hv_alloc_hyperv_page
  rw [hv_refill_empty hHV hdiv s hs hpage]
  have h := (page_chunks_cons hHV hdiv hPS (E.get_free_page s.page_requests)).1
  simp only []
  split
  next heq => rw [h] at heq; exact absurd heq (by simp)
  next hd rest heq =>
    rw [h] at heq
    simp only [List.cons.injEq] at heq
    obtain ⟨h1, h2⟩ := heq
    subst h1 h2
    rfl

/-- An allocation from a non-empty free list returns its first node and takes no page. -/
theorem hv_alloc_nonempty {E : Env} (s : State) (b : Nat) (rest : List Nat)
    (hs : s.free_list = b :: rest) :
    hv_alloc_hyperv_page E s = some (b, { s with free_list := rest }) := by
  unfold hv_alloc_hyperv_page
  rw [hv_refill_nonempty s (by simp [hs])]
  simp [hs]

/-- An allocation always returns a block. -/
theorem pool_alloc_returns {E : Env} (hHV : 0 < E.HV_HYP_PAGE_SIZE)
    (hdiv : E.HV_HYP_PAGE_SIZE ∣ E.PAGE_SIZE) (hPS : 0 < E.PAGE_SIZE)
    (hnonnull : ∀ k, E.get_free_page k ≠ 0) (s : State) :
    ∃ b s1, hv_alloc_hyperv_page E s = some (b, s1) := by
  cases hfl : s.free_list with
  | nil => exact ⟨_, _, hv_alloc_empty hHV hdiv hPS s hfl (hnonnull _)⟩
  | cons b rest => exact ⟨_, _, hv_alloc_nonempty s b rest hfl⟩

/-! ## Page pool: safety -/

/-- A chunk address determines its page and its position in the page. -/
theorem chunk_unique {PS HV r p q i j : Nat} (hr : PS = r * HV) (hHV : 0 < HV)
    (hp : PS ∣ p) (hq : PS ∣ q) (hi : i < r) (hj : j < r)
    (h : p + i * HV = q + j * HV) : p = q ∧ i = j := by
  have hi1 : i * HV < PS := by rw [hr]; exact Nat.mul_lt_mul_of_pos_right hi hHV
  have hj1 : j * HV < PS := by rw [hr]; exact Nat.mul_lt_mul_of_pos_right hj hHV
  obtain ⟨a, rfl⟩ := hp
  obtain ⟨b, rfl⟩ := hq
  have hm := congrArg (fun x => x % PS) h
  simp only [Nat.mul_add_mod, Nat.mod_eq_of_lt hi1, Nat.mod_eq_of_lt hj1] at hm
  refine ⟨by omega, Nat.eq_of_mul_eq_mul_right hHV hm⟩

/-- Every chunk of a page is the page address plus a multiple of the hypervisor page size below the page size. -/
theorem mem_page_chunks {E : Env} {addr b : Nat} (h : b ∈ page_chunks E addr) :
    ∃ j, j < E.PAGE_SIZE / E.HV_HYP_PAGE_SIZE ∧ b = addr + j * E.HV_HYP_PAGE_SIZE := by
  unfold page_chunks at h
  obtain ⟨t, ht, rfl⟩ := List.mem_map.mp h
  rw [List.mem_range'_1] at ht
  exact ⟨t, by omega, rfl⟩

/-- The chunks of a page are pairwise different. -/
theorem page_chunks_nodup {E : Env} (hHV : 0 < E.HV_HYP_PAGE_SIZE) (addr : Nat) :
    (page_chunks E addr).Nodup := by
  unfold page_chunks
  refine List.Nodup.map ?_ (List.nodup_range' _ _)
  intro a b hab
  exact Nat.eq_of_mul_eq_mul_right hHV (Nat.add_left_cancel hab)

/-- The invariant passes to a run whose blocks are among the old ones and still pairwise different. -/
theorem pool_inv_mono {E : Env} {r t : PoolRun} (hr : pool_inv E r)
    (hnd : t.blocks.Nodup) (hsub : ∀ b ∈ t.blocks, b ∈ r.blocks)
    (hreq : r.st.page_requests ≤ t.st.page_requests) : pool_inv E t := by
  refine ⟨hnd, fun b hb => ?_⟩
  obtain ⟨k, j, hk, hj, e⟩ := hr.2 b (hsub b hb)
  exact ⟨k, j, by omega, hj, e⟩

/-- One pool request keeps the invariant. -/
theorem pool_step_inv {E : Env} (hHV : 0 < E.HV_HYP_PAGE_SIZE)
    (hdiv : E.HV_HYP_PAGE_SIZE ∣ E.PAGE_SIZE) (hPS : 0 < E.PAGE_SIZE)
    (hnonnull : ∀ k, E.get_free_page k ≠ 0)
    (halign : ∀ k, E.PAGE_SIZE ∣ E.get_free_page k)
    (hfresh : Function.Injective E.get_free_page)
    {r t : PoolRun} {op : PoolOp} (hr : pool_inv E r) (h : pool_step E r op = some t) :
    pool_inv E t := by
  cases op with
  | alloc =>
    cases hfl : r.st.free_list with
    | nil =>
      simp only [pool_step, hv_alloc_empty hHV hdiv hPS r.st hfl (hnonnull _), Option.map_some',
        Option.some.injEq] at h
      subst h
      have hc := (page_chunks_cons hHV hdiv hPS (E.get_free_page r.st.page_requests)).1
      have hlive : r.blocks = r.live := by simp [PoolRun.blocks, hfl]
      have hperm : (E.get_free_page r.st.page_requests :: r.live ++
          (page_chunks E (E.get_free_page r.st.page_requests)).tail).Perm
          (r.live ++ page_chunks E (E.get_free_page r.st.page_requests)) := by
        conv_rhs => rw [hc]
        exact List.perm_middle.symm
      have hdisj : ∀ b, b ∈ r.live →
          b ∉ page_chunks E (E.get_free_page r.st.page_requests) := by
        intro b hb hb1
        obtain ⟨k, j, hk, hj, e⟩ := hr.2 b (by rw [hlive]; exact hb)
        obtain ⟨i, hi, e1⟩ := mem_page_chunks hb1
        have := (chunk_unique (ratio_mul hdiv) hHV (halign _) (halign _) hj hi
          (e.symm.trans e1)).1
        have := hfresh this
        omega
      refine ⟨?_, ?_⟩
      · show (E.get_free_page r.st.page_requests :: r.live ++
          (page_chunks E (E.get_free_page r.st.page_requests)).tail).Nodup
        rw [hperm.nodup_iff]
        exact List.Nodup.append (hlive ▸ hr.1) (page_chunks_nodup hHV _)
          (fun b hb hb1 => hdisj b hb hb1)
      · intro b hb
        have hb1 : b ∈ r.live ++ page_chunks E (E.get_free_page r.st.page_requests) :=
          hperm.mem_iff.mp hb
        rcases List.mem_append.mp hb1 with hb2 | hb2
        · obtain ⟨k, j, hk, hj, e⟩ := hr.2 b (by rw [hlive]; exact hb2)
          exact ⟨k, j, Nat.lt_succ_of_lt hk, hj, e⟩
        · obtain ⟨i, hi, e1⟩ := mem_page_chunks hb2
          exact ⟨r.st.page_requests, i, Nat.lt_succ_self _, hi, e1⟩
    | cons b rest =>
      simp only [pool_step, hv_alloc_nonempty r.st b rest hfl, Option.map_some',
        Option.some.injEq] at h
      subst h
      have hperm : (b :: r.live ++ rest).Perm r.blocks := by
        rw [PoolRun.blocks, hfl]
        exact List.perm_middle.symm
      exact pool_inv_mono hr (hperm.nodup_iff.mpr hr.1) (fun x hx => hperm.mem_iff.mp hx)
        (le_refl _)
  | free addr =>
    simp only [pool_step] at h
    split at h
    next hmem =>
      have h := Option.some.inj h
      subst h
      by_cases h0 : addr = 0
      · have hsub : (r.live.erase addr ++ r.st.free_list).Sublist r.blocks :=
          List.Sublist.append_right (List.erase_sublist _ _) _
        refine pool_inv_mono hr ?_ ?_ ?_
        · simpa [PoolRun.blocks, hv_free_hyperv_page, h0] using hsub.nodup hr.1
        · intro x hx
          have : x ∈ r.live.erase addr ++ r.st.free_list := by
            simpa [PoolRun.blocks, hv_free_hyperv_page, h0] using hx
          exact hsub.subset this
        · simp [hv_free_hyperv_page, h0]
      · have hperm : (r.live.erase addr ++ addr :: r.st.free_list).Perm r.blocks := by
          refine List.perm_middle.trans ?_
          exact (List.perm_cons_erase hmem).symm.append_right _
        refine pool_inv_mono hr ?_ ?_ ?_
        · simpa [PoolRun.blocks, hv_free_hyperv_page, h0] using hperm.nodup_iff.mpr hr.1
        · intro x hx
          have : x ∈ r.live.erase addr ++ addr :: r.st.free_list := by
            simpa [PoolRun.blocks, hv_free_hyperv_page, h0] using hx
          exact hperm.mem_iff.mp this
        · simp [hv_free_hyperv_page, h0]
    · exact absurd h (by simp)

/-- A sequence of pool requests keeps the invariant. -/
theorem pool_run_inv {E : Env} (hHV : 0 < E.HV_HYP_PAGE_SIZE)
    (hdiv : E.HV_HYP_PAGE_SIZE ∣ E.PAGE_SIZE) (hPS : 0 < E.PAGE_SIZE)
    (hnonnull : ∀ k, E.get_free_page k ≠ 0)
    (halign : ∀ k, E.PAGE_SIZE ∣ E.get_free_page k)
    (hfresh : Function.Injective E.get_free_page)
    (ops : List PoolOp) {r t : PoolRun} (hr : pool_inv E r)
    (h : pool_run E ops r = some t) : pool_inv E t := by
  induction ops generalizing r with
  | nil => rw [← Option.some.inj h]; exact hr
  | cons op ops ih =>
    rw [pool_run] at h
    obtain ⟨m, hm, hrest⟩ := Option.bind_eq_some.mp h
    exact ih (pool_step_inv hHV hdiv hPS hnonnull halign hfresh hr hm) hrest

/-- Under the invariant every block is aligned and lies inside one page handed out. -/
theorem pool_inv_in_page {E : Env}
    (hdiv : E.HV_HYP_PAGE_SIZE ∣ E.PAGE_SIZE)
    (halign : ∀ k, E.PAGE_SIZE ∣ E.get_free_page k)
    {r : PoolRun} (hr : pool_inv E r) {b : Nat} (hb : b ∈ r.blocks) :
    block_in_page E r.st.page_requests b := by
  obtain ⟨k, j, hk, hj, e⟩ := hr.2 b hb
  have hmul := ratio_mul hdiv
  have hle : (j + 1) * E.HV_HYP_PAGE_SIZE ≤ E.PAGE_SIZE := by
    conv_rhs => rw [hmul]
    exact Nat.mul_le_mul_right _ hj
  rw [Nat.succ_mul] at hle
  refine ⟨?_, k, hk, by omega, by omega⟩
  rw [e]
  exact Dvd.dvd.add (hdiv.trans (halign k)) (Dvd.intro_left _ rfl)

/-- Two different aligned blocks do not overlap. -/
theorem aligned_apart {E : Env} {a b : Nat} (ha : E.HV_HYP_PAGE_SIZE ∣ a)
    (hb : E.HV_HYP_PAGE_SIZE ∣ b) (hne : a ≠ b) : blocks_apart E a b := by
  obtain ⟨m, rfl⟩ := ha
  obtain ⟨n, rfl⟩ := hb
  unfold blocks_apart
  rcases Nat.lt_or_gt_of_ne (fun h : m = n => hne (by rw [h])) with h | h
  · left
    calc E.HV_HYP_PAGE_SIZE * m + E.HV_HYP_PAGE_SIZE = E.HV_HYP_PAGE_SIZE * (m + 1) := by
          rw [Nat.mul_succ]
      _ ≤ E.HV_HYP_PAGE_SIZE * n := Nat.mul_le_mul_left _ h
  · right
    calc E.HV_HYP_PAGE_SIZE * n + E.HV_HYP_PAGE_SIZE = E.HV_HYP_PAGE_SIZE * (n + 1) := by
          rw [Nat.mul_succ]
      _ ≤ E.HV_HYP_PAGE_SIZE * m := Nat.mul_le_mul_left _ h

/-- Claim C1.  Take any sequence of `hv_alloc_hyperv_page` / `hv_free_hyperv_page`
requests that starts from an empty free list, frees only blocks that are held
at that moment, and runs over a page allocator that never fails and returns
distinct, `PAGE_SIZE`-aligned pages (`HV_HYP_PAGE_SIZE` is positive and divides
`PAGE_SIZE`, both being powers of two with `HV_HYP_PAGE_SIZE <= PAGE_SIZE`).
In the state it reaches: no two held blocks overlap; no held block is on the
free list; every held block is a multiple of `HV_HYP_PAGE_SIZE` and lies with
its `HV_HYP_PAGE_SIZE` bytes inside one page handed out; and the next
`hv_alloc_hyperv_page` returns, with a block that overlaps no held block and
has the same alignment and placement. -/
theorem pool_safety (E : Env) (hHV : 0 < E.HV_HYP_PAGE_SIZE)
    (hdiv : E.HV_HYP_PAGE_SIZE ∣ E.PAGE_SIZE) (hPS : 0 < E.PAGE_SIZE)
    (hnonnull : ∀ k, E.get_free_page k ≠ 0)
    (halign : ∀ k, E.PAGE_SIZE ∣ E.get_free_page k)
    (hfresh : Function.Injective E.get_free_page)
    (s0 : State) (hs0 : s0.free_list = []) (ops : List PoolOp) (r : PoolRun)
    (hrun : pool_run E ops ⟨s0, []⟩ = some r) :
    r.live.Pairwise (blocks_apart E)
    ∧ (∀ b ∈ r.live, b ∉ r.st.free_list)
    ∧ (∀ b ∈ r.live, block_in_page E r.st.page_requests b)
    ∧ ∃ b s1, hv_alloc_hyperv_page E r.st = some (b, s1)
        ∧ (∀ a ∈ r.live, blocks_apart E b a)
        ∧ block_in_page E s1.page_requests b := by
  have h0 : pool_inv E ⟨s0, []⟩ := by
    refine ⟨by simp [PoolRun.blocks, hs0], fun b hb => ?_⟩
    simp [PoolRun.blocks, hs0] at hb
  have hr := pool_run_inv hHV hdiv hPS hnonnull halign hfresh ops h0 hrun
  have hpage : ∀ {t : PoolRun}, pool_inv E t → ∀ b ∈ t.live,
      block_in_page E t.st.page_requests b := fun ht b hb =>
    pool_inv_in_page hdiv halign ht (List.mem_append_left _ hb)
  have hpair : ∀ {t : PoolRun}, pool_inv E t → t.live.Pairwise (blocks_apart E) := by
    intro t ht
    have hnd : t.live.Nodup := List.Nodup.of_append_left ht.1
    exact List.Pairwise.imp_of_mem
      (fun ha hb hne => aligned_apart (hpage ht _ ha).1 (hpage ht _ hb).1 hne) hnd
  refine ⟨hpair hr, ?_, hpage hr, ?_⟩
  · intro b hb hb1
    exact (List.disjoint_of_nodup_append hr.1) hb hb1
  · obtain ⟨b, s1, halloc⟩ := pool_alloc_returns hHV hdiv hPS hnonnull r.st
    have hstep : pool_step E r .alloc = some ⟨s1, b :: r.live⟩ := by
      simp [pool_step, halloc]
    have ht := pool_step_inv hHV hdiv hPS hnonnull halign hfresh hr hstep
    refine ⟨b, s1, halloc, ?_, hpage ht b (List.mem_cons_self _ _)⟩
    exact (List.pairwise_cons.mp (hpair ht)).1

/-- Claim C1 on `sample_requests` over `mock_env`. -/
theorem pool_safety_witness :
    (0 < mock_env.HV_HYP_PAGE_SIZE ∧ mock_env.HV_HYP_PAGE_SIZE ∣ mock_env.PAGE_SIZE
      ∧ 0 < mock_env.PAGE_SIZE ∧ mock_env.get_free_page 0 = 65536
      ∧ State.boot.free_list = []
      ∧ pool_run mock_env sample_requests ⟨State.boot, []⟩ = some sample_run)
    ∧ sample_run.live.Pairwise (blocks_apart mock_env)
    ∧ (∀ b ∈ sample_run.live, b ∉ sample_run.st.free_list)
    ∧ (∀ b ∈ sample_run.live, block_in_page mock_env sample_run.st.page_requests b) :=
  have h := pool_safety mock_env (by decide) (by decide) (by decide)
    (fun k => Nat.mul_ne_zero (Nat.succ_ne_zero k) (by decide))
    (fun k => Dvd.intro_left (k + 1) rfl)
    (fun a b hab => by
      have h1 : (a + 1) * 65536 = (b + 1) * 65536 := hab
      omega)
    State.boot rfl sample_requests sample_run rfl
  ⟨⟨by decide, by decide, by decide, rfl, rfl, rfl⟩, h.1, h.2.1, h.2.2.1⟩

/-! ## Page pool: accounting of native pages -/

/-- A run of `n + 1` allocations is a run of `n` allocations followed by one more. -/
theorem alloc_n_succ (E : Env) (n : Nat) (s : State) :
    alloc_n E (n + 1) s =
      (alloc_n E n s).bind fun t => (hv_alloc_hyperv_page E t).map Prod.snd := by
  induction n generalizing s with
  | zero =>
    cases h : hv_alloc_hyperv_page E s <;> simp [alloc_n, h]
  | succ n ih =>
    rw [alloc_n]
    cases h : hv_alloc_hyperv_page E s with
    | none => simp [alloc_n, h]
    | some p =>
      simp only [Option.some_bind]
      rw [ih p.2]
      conv_rhs => rw [alloc_n, h, Option.some_bind]

/-- After `n` allocations from an empty free list: the pages taken and the chunks left, counted without division. -/
theorem alloc_n_count {E : Env} (hHV : 0 < E.HV_HYP_PAGE_SIZE)
    (hdiv : E.HV_HYP_PAGE_SIZE ∣ E.PAGE_SIZE) (hPS : 0 < E.PAGE_SIZE)
    (hnonnull : ∀ k, E.get_free_page k ≠ 0) (s0 : State) (hs0 : s0.free_list = []) (n : Nat) :
    ∃ (s : State) (p : Nat), alloc_n E n s0 = some s
      ∧ s.page_requests = s0.page_requests + p
      ∧ s.free_list.length + n = p * (E.PAGE_SIZE / E.HV_HYP_PAGE_SIZE)
      ∧ s.free_list.length < E.PAGE_SIZE / E.HV_HYP_PAGE_SIZE := by
  have hpos := ratio_pos hHV hdiv hPS
  induction n with
  | zero => exact ⟨s0, 0, rfl, rfl, by simp [hs0], by simpa [hs0] using hpos⟩
  | succ n ih =>
    obtain ⟨s, p, hrun, hp, hlen, hlt⟩ := ih
    rw [alloc_n_succ, hrun, Option.some_bind]
    cases hfl : s.free_list with
    | nil =>
      rw [hv_alloc_empty hHV hdiv hPS s hfl (hnonnull _)]
      refine ⟨_, p + 1, rfl, ?_, ?_, ?_⟩
      · simp only []; omega
      · have hl := (page_chunks_cons hHV hdiv hPS (E.get_free_page s.page_requests)).2
        rw [hfl] at hlen
        simp only [List.length_tail, hl, List.length_nil] at hlen ⊢
        rw [Nat.add_mul]
        omega
      · have hl := (page_chunks_cons hHV hdiv hPS (E.get_free_page s.page_requests)).2
        simp only [List.length_tail, hl]
        omega
    | cons b rest =>
      rw [hv_alloc_nonempty s b rest hfl]
      refine ⟨_, p, rfl, hp, ?_, ?_⟩
      · rw [hfl] at hlen
        simp only [List.length_cons] at hlen ⊢
        omega
      · rw [hfl] at hlt
        simp only [List.length_cons] at hlt ⊢
        omega

/-- Claim C2.  Over a page allocator that never fails (never returns 0), from a
state with an empty free list, `n` successive calls of `hv_alloc_hyperv_page`
all return and request exactly
`ceil(n * HV_HYP_PAGE_SIZE / PAGE_SIZE)` pages from the page allocator; the
chunks carved from these pages and not handed out are all on the free list:
its length is `pages * (PAGE_SIZE / HV_HYP_PAGE_SIZE) - n`, a difference that
does not truncate. -/
theorem native_page_accounting (E : Env) (hHV : 0 < E.HV_HYP_PAGE_SIZE)
    (hdiv : E.HV_HYP_PAGE_SIZE ∣ E.PAGE_SIZE) (hPS : 0 < E.PAGE_SIZE)
    (hnonnull : ∀ k, E.get_free_page k ≠ 0) (s0 : State) (hs0 : s0.free_list = []) (n : Nat) :
    ∃ s : State, alloc_n E n s0 = some s
      ∧ s.page_requests =
          s0.page_requests + (n * E.HV_HYP_PAGE_SIZE + E.PAGE_SIZE - 1) / E.PAGE_SIZE
      ∧ n ≤ (s.page_requests - s0.page_requests) * (E.PAGE_SIZE / E.HV_HYP_PAGE_SIZE)
      ∧ s.free_list.length =
          (s.page_requests - s0.page_requests) * (E.PAGE_SIZE / E.HV_HYP_PAGE_SIZE) - n := by
  obtain ⟨s, p, hrun, hp, hlen, hlt⟩ := alloc_n_count hHV hdiv hPS hnonnull s0 hs0 n
  have hsub : s.page_requests - s0.page_requests = p := by omega
  refine ⟨s, hrun, ?_, ?_, ?_⟩
  · rw [hp]
    congr 1
    have hr := ratio_mul hdiv
    have e1 : (s.free_list.length + n) * E.HV_HYP_PAGE_SIZE = p * E.PAGE_SIZE := by
      rw [hlen, Nat.mul_assoc, ← hr]
    have e2 : s.free_list.length * E.HV_HYP_PAGE_SIZE < E.PAGE_SIZE := by
      conv_rhs => rw [hr]
      exact Nat.mul_lt_mul_of_pos_right hlt hHV
    rw [Nat.add_mul] at e1
    have e3 : n * E.HV_HYP_PAGE_SIZE + E.PAGE_SIZE - 1 =
        E.PAGE_SIZE * p + (E.PAGE_SIZE - 1 - s.free_list.length * E.HV_HYP_PAGE_SIZE) := by
      rw [Nat.mul_comm E.PAGE_SIZE p]
      omega
    rw [e3, Nat.mul_add_div hPS, Nat.div_eq_of_lt (by omega)]
    rfl
  · rw [hsub]; omega
  · rw [hsub]; omega

/-- Claim C2 for 17 allocations over `mock_env`: two pages of sixteen chunks. -/
theorem native_page_accounting_witness :
    (0 < mock_env.HV_HYP_PAGE_SIZE ∧ mock_env.HV_HYP_PAGE_SIZE ∣ mock_env.PAGE_SIZE
      ∧ 0 < mock_env.PAGE_SIZE ∧ mock_env.get_free_page 1 = 131072
      ∧ State.boot.free_list = [])
    ∧ (∃ s : State, alloc_n mock_env 17 State.boot = some s
      ∧ s.page_requests = 0 + (17 * 4096 + 65536 - 1) / 65536
      ∧ 17 ≤ (s.page_requests - 0) * (65536 / 4096)
      ∧ s.free_list.length = (s.page_requests - 0) * (65536 / 4096) - 17)
    ∧ (alloc_n mock_env 17 State.boot).map (fun s => (s.page_requests, s.free_list.length))
        = some (2, 15) :=
  ⟨⟨by decide, by decide, by decide, rfl, rfl⟩,
    native_page_accounting mock_env (by decide) (by decide) (by decide)
      (fun k => Nat.mul_ne_zero (Nat.succ_ne_zero k) (by decide)) State.boot rfl 17,
    by decide⟩

/-! ## Page pool: reuse of freed blocks -/

/-- Claim C3.  For every pool state `s` and every block `b` (a non-NULL address),
`hv_free_hyperv_page(b)` followed by `hv_alloc_hyperv_page()` returns `b` and
ends in `s` itself: the free list is as before the free and no page has been
requested.  And `hv_free_hyperv_page(0)` changes nothing. -/
theorem free_then_alloc_reuses (E : Env) (s : State) (b : Nat) (hb : b ≠ 0) :
    hv_alloc_hyperv_page E (hv_free_hyperv_page b s) = some (b, s)
    ∧ hv_free_hyperv_page 0 s = s := by
  refine ⟨?_, ?_⟩
  · simp [hv_alloc_hyperv_page, hv_free_hyperv_page, hv_refill, hb]
  · simp [hv_free_hyperv_page]

/-- Claim C3 at block `4096` in the boot state. -/
theorem free_then_alloc_reuses_witness :
    (4096 : Nat) ≠ 0 ∧
    hv_alloc_hyperv_page mock_env (hv_free_hyperv_page 4096 State.boot) = some (4096, State.boot) :=
  ⟨by decide, (free_then_alloc_reuses mock_env State.boot 4096 (by decide)).1⟩

/-! ## Boot negotiation -/

/-- A `hyperv_init` run that finds the signature and returns has issued its four hypercalls, stored the features and hints, and ended in the allocation part. -/
theorem hyperv_init_some {E : Env} {B : BootInput} {s : State} {r : Int × State}
    (hsig : strncmp B.hypervisor_id MsHyperV 8 = 0) (h : hyperv_init E B s = some r) :
    hyperv_init_alloc E B
      { s with
        hvcalls := s.hvcalls ++
          [guest_osid_call E, vpreg_get_call E E.HV_REGISTER_PRIVILEGES_AND_FEATURES,
           vpreg_get_call E E.HV_REGISTER_FEATURES,
           vpreg_get_call E E.HV_REGISTER_HYPERVISOR_VERSION]
        ms_hyperv := negotiated_info E s } = some r := by
  unfold hyperv_init at h
  rw [if_neg (not_not.mpr hsig)] at h
  split at h
  · exact absurd h (by simp)
  next s1 h1 =>
    split at h
    · exact absurd h (by simp)
    next pf s2 h2 =>
      split at h
      · exact absurd h (by simp)
      next f s3 h3 =>
        split at h
        · exact absurd h (by simp)
        next v s4 h4 =>
          have e1 := hv_set_vpreg_some h1
          obtain ⟨p2, e2⟩ := hv_get_vpreg_128_some h2
          obtain ⟨p3, e3⟩ := hv_get_vpreg_128_some h3
          obtain ⟨_, e4⟩ := hv_get_vpreg_128_some h4
          subst e1 e2 e3 e4 p2 p3
          simpa [negotiated_info, privileges_and_features_reply, features_reply,
            guest_osid_call] using h

/-- The three ways the allocation part of `hyperv_init` returns, with the flag and the features it leaves. -/
theorem hyperv_init_alloc_flag {E : Env} {B : BootInput} {s : State} {ret : Int} {s1 : State}
    (h : hyperv_init_alloc E B s = some (ret, s1)) :
    s1.ms_hyperv = s.ms_hyperv ∧
    ((ret = 0 ∧ s1.hyperv_initialized = true ∧ B.kmalloc_array_ok = true
        ∧ ¬ B.cpuhp_setup_state < 0) ∨
     (ret = -(E.ENOMEM : Int) ∧ s1.hyperv_initialized = s.hyperv_initialized
        ∧ B.kmalloc_array_ok = false) ∨
     (ret = -(E.EINVAL : Int) ∧ s1.hyperv_initialized = s.hyperv_initialized
        ∧ B.kmalloc_array_ok = true ∧ B.cpuhp_setup_state < 0)) := by
  unfold hyperv_init_alloc at h
  split at h
  · exact absurd h (by simp)
  · split at h
    next hk =>
      simp only [Option.some.injEq, Prod.mk.injEq] at h
      obtain ⟨h1, h2⟩ := h
      subst h1 h2
      exact ⟨rfl, Or.inr (Or.inl ⟨rfl, rfl, hk⟩)⟩
    next hk =>
      have hk1 : B.kmalloc_array_ok = true := by simpa using hk
      split at h
      next hc =>
        simp only [Option.some.injEq, Prod.mk.injEq] at h
        obtain ⟨h1, h2⟩ := h
        subst h1 h2
        exact ⟨rfl, Or.inr (Or.inr ⟨rfl, rfl, hk1, hc⟩)⟩
      next hc =>
        simp only [Option.some.injEq, Prod.mk.injEq] at h
        obtain ⟨h1, h2⟩ := h
        subst h1 h2
        exact ⟨rfl, Or.inl ⟨rfl, rfl, hk1, hc⟩⟩

/-- Claim C4, evaluated.  A boot on Hyper-V in which both allocations succeed and
`cpuhp_setup_state` returns `-12`: `hyperv_init` returns `-22` and has released
`hv_vp_index`, but the per-CPU input-pointer array is still allocated: one
allocation of the run is outstanding. -/
theorem hotplug_failure_leaks_input_arg :
    (hyperv_init mock_env (boot_input (-12)) State.boot).map
        (fun r => (r.1, r.2.outstanding, r.2.hyperv_pcpu_input_arg, r.2.hv_vp_index))
      = some (-22, [Allocation.pcpu_input_arg], some [0, 0, 0, 0], none) := by
  decide

/-- Claim C8.  After a `hyperv_init` run that finds the signature and returns,
whatever it returns, `ms_hyperv.misc_features` is the upper 32 bits of the high
half of the privileges-and-features value OR'ed with
`HV_STIMER_DIRECT_MODE_AVAILABLE`, and `ms_hyperv.hints` is the lower 32 bits
of the low half of the features value OR'ed with
`HV_DEPRECATING_AEOI_RECOMMENDED` (both flags being 32-bit values).  So every
bit of either flag is set in the stored field, and every other bit is as the
hypervisor reported it. -/
theorem features_hints_override (E : Env) (B : BootInput) (s s1 : State) (ret : Int)
    (hrun : hyperv_init E B s = some (ret, s1))
    (hsig : strncmp B.hypervisor_id MsHyperV 8 = 0)
    (hmisc : E.HV_STIMER_DIRECT_MODE_AVAILABLE < 2 ^ 32)
    (hhint : E.HV_DEPRECATING_AEOI_RECOMMENDED < 2 ^ 32) :
    s1.ms_hyperv.misc_features =
        upper_32_bits (privileges_and_features_reply E s).2 |||
          E.HV_STIMER_DIRECT_MODE_AVAILABLE
    ∧ s1.ms_hyperv.hints =
        lower_32_bits (features_reply E s).1 ||| E.HV_DEPRECATING_AEOI_RECOMMENDED
    ∧ (∀ i, E.HV_STIMER_DIRECT_MODE_AVAILABLE.testBit i = true →
        s1.ms_hyperv.misc_features.testBit i = true)
    ∧ (∀ i, E.HV_DEPRECATING_AEOI_RECOMMENDED.testBit i = true →
        s1.ms_hyperv.hints.testBit i = true)
    ∧ (∀ i, E.HV_STIMER_DIRECT_MODE_AVAILABLE.testBit i = false →
        s1.ms_hyperv.misc_features.testBit i =
          (upper_32_bits (privileges_and_features_reply E s).2).testBit i)
    ∧ (∀ i, E.HV_DEPRECATING_AEOI_RECOMMENDED.testBit i = false →
        s1.ms_hyperv.hints.testBit i = (lower_32_bits (features_reply E s).1).testBit i) := by
  have h1 := (hyperv_init_alloc_flag (hyperv_init_some hsig hrun)).1
  have hm : s1.ms_hyperv.misc_features =
      upper_32_bits (privileges_and_features_reply E s).2 |||
        E.HV_STIMER_DIRECT_MODE_AVAILABLE := by
    rw [h1]
    exact Nat.mod_eq_of_lt (Nat.or_lt_two_pow (Nat.mod_lt _ (by norm_num)) hmisc)
  have hh : s1.ms_hyperv.hints =
      lower_32_bits (features_reply E s).1 ||| E.HV_DEPRECATING_AEOI_RECOMMENDED := by
    rw [h1]
    exact Nat.mod_eq_of_lt (Nat.or_lt_two_pow (Nat.mod_lt _ (by norm_num)) hhint)
  refine ⟨hm, hh, ?_, ?_, ?_, ?_⟩
  · intro i hi
    rw [hm, Nat.testBit_or, hi, Bool.or_true]
  · intro i hi
    rw [hh, Nat.testBit_or, hi, Bool.or_true]
  · intro i hi
    rw [hm, Nat.testBit_or, hi, Bool.or_false]
  · intro i hi
    rw [hh, Nat.testBit_or, hi, Bool.or_false]

/-- Claim C8 over a hypervisor that reports zero for both registers: the stored fields are exactly the two flags. -/
theorem features_hints_override_witness :
    hyperv_init zero_env (boot_input 0) State.boot = some (0, booted)
    ∧ (privileges_and_features_reply zero_env State.boot, features_reply zero_env State.boot)
        = ((0, 0), (0, 0))
    ∧ booted.ms_hyperv.misc_features = upper_32_bits 0 ||| 2 ^ 19
    ∧ booted.ms_hyperv.hints = lower_32_bits 0 ||| 2 ^ 9 :=
  ⟨rfl, rfl,
    (features_hints_override zero_env (boot_input 0) State.boot booted 0 rfl rfl
      (by decide) (by decide)).1,
    (features_hints_override zero_env (boot_input 0) State.boot booted 0 rfl rfl
      (by decide) (by decide)).2.1⟩

/-! ## Crash reporting -/

/-- A gated call of `hyperv_report_panic` changes nothing. -/
theorem report_panic_gated (E : Env) (c : PanicCall) (s : State) (h : panic_gated E c) :
    hyperv_report_panic E c.regs c.err c.in_die s = some s := by
  unfold hyperv_report_panic
  rw [if_pos (show c.in_die = true ∧ E.panic_on_oops = 0 from h)]

/-- Once the latch is set a call of `hyperv_report_panic` changes nothing. -/
theorem report_panic_latched (E : Env) (c : PanicCall) (s : State)
    (h : s.panic_reported = true) :
    hyperv_report_panic E c.regs c.err c.in_die s = some s := by
  simp [hyperv_report_panic, h]

/-- The first call that is not gated sets the latch, reads the guest id and writes the six registers in program order. -/
theorem report_panic_first (E : Env) (c : PanicCall) (s : State)
    (hsucc : hypercalls_succeed E) (hlatch : s.panic_reported = false)
    (hc : ¬ panic_gated E c) :
    hyperv_report_panic E c.regs c.err c.in_die s =
      some { s with
        panic_reported := true
        hvcalls := s.hvcalls ++
          [vpreg_get_call E E.HV_REGISTER_GUEST_OSID,
           vpreg_set_call E E.HV_REGISTER_CRASH_P0 (c.err % 2 ^ 64).toNat,
           vpreg_set_call E E.HV_REGISTER_CRASH_P1
             (vpreg_reply E s.hvcalls E.HV_REGISTER_GUEST_OSID).1,
           vpreg_set_call E E.HV_REGISTER_CRASH_P2 c.regs.pc,
           vpreg_set_call E E.HV_REGISTER_CRASH_P3 (c.regs.regs 0),
           vpreg_set_call E E.HV_REGISTER_CRASH_P4 (c.regs.regs 1),
           vpreg_set_call E E.HV_REGISTER_CRASH_CTL E.HV_CRASH_CTL_CRASH_NOTIFY] } := by
  unfold hyperv_report_panic
  rw [if_neg (show ¬ (c.in_die = true ∧ E.panic_on_oops = 0) from hc),
    if_neg (by simp [hlatch]), hv_get_vpreg_of_succeed hsucc]
  simp [hyperv_report_panic_writes, hv_set_vpreg_of_succeed hsucc]

/-- A series of calls each of which is gated or finds the latch set issues no hypercall. -/
theorem report_series_noop (E : Env) (cs : List PanicCall) (s : State)
    (h : ∀ x ∈ cs, panic_gated E x ∨ s.panic_reported = true) :
    report_series E cs s = some (List.replicate cs.length [], s) := by
  induction cs with
  | nil => rfl
  | cons c cs ih =>
    have hc : hyperv_report_panic E c.regs c.err c.in_die s = some s := by
      rcases h c (List.mem_cons_self _ _) with hg | hl
      · exact report_panic_gated E c s hg
      · exact report_panic_latched E c s hl
    have ih1 := ih (fun x hx => h x (List.mem_cons_of_mem _ hx))
    simp [report_series, hc, ih1, List.replicate_succ]

/-- Claim C5.  In a series of `hyperv_report_panic` calls run one after the other,
with every hypercall succeeding and the latch clear at the start, let `c` be
the first call that is not gated (`pre` the calls before it, all gated, and
`post` the calls after it).  Then the series returns; the calls of `pre` and of
`post` issue no hypercall; and `c` reads the guest OS id and then writes, in
this order, P0 = its `err` (as a `u64`), P1 = the guest id it read,
P2 = `regs->pc`, P3 = `regs->regs[0]`, P4 = `regs->regs[1]` and
CRASH_CTL = `HV_CRASH_CTL_CRASH_NOTIFY`.  The final state differs from the
first only in the latch and in these hypercalls. -/
theorem panic_report_exactly_once (E : Env) (pre post : List PanicCall) (c : PanicCall)
    (s : State) (hsucc : hypercalls_succeed E) (hlatch : s.panic_reported = false)
    (hpre : ∀ x ∈ pre, panic_gated E x) (hc : ¬ panic_gated E c) :
    report_series E (pre ++ c :: post) s =
      some (List.replicate pre.length [] ++
          [vpreg_get_call E E.HV_REGISTER_GUEST_OSID,
           vpreg_set_call E E.HV_REGISTER_CRASH_P0 (c.err % 2 ^ 64).toNat,
           vpreg_set_call E E.HV_REGISTER_CRASH_P1
             (vpreg_reply E s.hvcalls E.HV_REGISTER_GUEST_OSID).1,
           vpreg_set_call E E.HV_REGISTER_CRASH_P2 c.regs.pc,
           vpreg_set_call E E.HV_REGISTER_CRASH_P3 (c.regs.regs 0),
           vpreg_set_call E E.HV_REGISTER_CRASH_P4 (c.regs.regs 1),
           vpreg_set_call E E.HV_REGISTER_CRASH_CTL E.HV_CRASH_CTL_CRASH_NOTIFY]
            :: List.replicate post.length [],
        { s with
          panic_reported := true
          hvcalls := s.hvcalls ++
            [vpreg_get_call E E.HV_REGISTER_GUEST_OSID,
             vpreg_set_call E E.HV_REGISTER_CRASH_P0 (c.err % 2 ^ 64).toNat,
             vpreg_set_call E E.HV_REGISTER_CRASH_P1
               (vpreg_reply E s.hvcalls E.HV_REGISTER_GUEST_OSID).1,
             vpreg_set_call E E.HV_REGISTER_CRASH_P2 c.regs.pc,
             vpreg_set_call E E.HV_REGISTER_CRASH_P3 (c.regs.regs 0),
             vpreg_set_call E E.HV_REGISTER_CRASH_P4 (c.regs.regs 1),
             vpreg_set_call E E.HV_REGISTER_CRASH_CTL E.HV_CRASH_CTL_CRASH_NOTIFY] }) := by
  induction pre with
  | nil =>
    have h1 := report_panic_first E c s hsucc hlatch hc
    simp only [List.nil_append, List.length_nil, List.replicate_zero, report_series, h1]
    rw [report_series_noop E post _ (fun x _ => Or.inr rfl)]
    simp
  | cons p pre ih =>
    have hp := report_panic_gated E p s (hpre p (List.mem_cons_self _ _))
    have ih1 := ih (fun x hx => hpre x (List.mem_cons_of_mem _ hx))
    rw [List.cons_append, report_series, hp]
    simp only []
    rw [ih1]
    simp [List.replicate_succ]

/-- Claim C5 on eight calls with error codes 0 to 7, the first two gated: P0 is written once, with 2. -/
theorem panic_report_exactly_once_witness :
    (State.boot.panic_reported = false ∧ ¬ panic_gated mock_env reporting_call)
    ∧ (report_series mock_env (gated_calls ++ reporting_call :: later_calls) State.boot).map
        (fun r => (r.1.map (crash_p0_values mock_env), r.2.panic_reported))
      = some ([[], [], [2], [], [], [], [], []], true) :=
  ⟨⟨rfl, fun h => absurd h.1 (by decide)⟩,
    (congrArg (Option.map fun r => (r.1.map (crash_p0_values mock_env), r.2.panic_reported))
      (panic_report_exactly_once mock_env gated_calls later_calls reporting_call State.boot
        (mock_succeeds tlfs 0 mock_env rfl rfl (by decide)) rfl
        (fun x hx => by
          simp only [gated_calls, List.mem_cons, List.mem_singleton, List.not_mem_nil,
            or_false] at hx
          rcases hx with rfl | rfl <;> exact ⟨rfl, rfl⟩)
        (fun h => absurd h.1 (by decide)))).trans rfl⟩

/-- Claim C6 fails: after `hyperv_report_panic` has emitted a report and set the
latch, `hyperv_report_panic_msg(0x5000, 100)` writes all six crash
registers. -/
theorem panic_msg_after_report_writes :
    ((hyperv_report_panic mock_env sample_regs 1 false State.boot).bind fun s1 =>
      (hyperv_report_panic_msg mock_env 0x5000 100 s1).map fun s2 =>
        (s1.panic_reported, s2.hvcalls.drop s1.hvcalls.length)) =
    some (true,
      [vpreg_set_call mock_env 0x210 0, vpreg_set_call mock_env 0x211 0,
       vpreg_set_call mock_env 0x212 0, vpreg_set_call mock_env 0x213 0x5000,
       vpreg_set_call mock_env 0x214 100, vpreg_set_call mock_env 0x215 (2 ^ 63 + 2 ^ 62)]) := by
  decide

/-- Claim C6, amended.  The function `hyperv_report_panic_msg` does not consult the
latch: in every state, with every hypercall succeeding, it writes P0 = 0,
P1 = 0, P2 = 0, P3 = `pa`, P4 = `size` and then
CRASH_CTL = `NOTIFY | NOTIFY_MSG`, and leaves everything else, the latch
included, as it was. -/
theorem panic_msg_always_writes (E : Env) (pa size : Nat) (s : State)
    (hsucc : hypercalls_succeed E) :
    hyperv_report_panic_msg E pa size s =
      some { s with
        hvcalls := s.hvcalls ++
          [vpreg_set_call E E.HV_REGISTER_CRASH_P0 0,
           vpreg_set_call E E.HV_REGISTER_CRASH_P1 0,
           vpreg_set_call E E.HV_REGISTER_CRASH_P2 0,
           vpreg_set_call E E.HV_REGISTER_CRASH_P3 pa,
           vpreg_set_call E E.HV_REGISTER_CRASH_P4 size,
           vpreg_set_call E E.HV_REGISTER_CRASH_CTL
             (E.HV_CRASH_CTL_CRASH_NOTIFY ||| E.HV_CRASH_CTL_CRASH_NOTIFY_MSG)] } := by
  simp [hyperv_report_panic_msg, hv_set_vpreg_of_succeed hsucc]

/-- Claim C6, amended, in a state whose latch is set. -/
theorem panic_msg_always_writes_witness :
    hyperv_report_panic_msg mock_env 0x5000 100 { State.boot with panic_reported := true } =
      some { State.boot with
        panic_reported := true
        hvcalls :=
          [vpreg_set_call mock_env 0x210 0, vpreg_set_call mock_env 0x211 0,
           vpreg_set_call mock_env 0x212 0, vpreg_set_call mock_env 0x213 0x5000,
           vpreg_set_call mock_env 0x214 100,
           vpreg_set_call mock_env 0x215 (2 ^ 63 ||| 2 ^ 62)] } :=
  panic_msg_always_writes mock_env 0x5000 100 { State.boot with panic_reported := true }
    (mock_succeeds tlfs 0 mock_env rfl rfl (by decide))

/-! ## VP registers -/

/-- Claim C7.  Over the mock hypervisor, with any upper bits in the status word,
for every register identifier `id` and every 64-bit `v`, `hv_set_vpreg(id, v)`
followed by `hv_get_vpreg(id)` passes both `BUG_ON`s and returns `v`. -/
theorem vpreg_round_trip (E : Env) (upper : Nat)
    (hmock : E.hvc = mock_hypervisor E.toConsts upper)
    (hst : E.HV_STATUS_SUCCESS < 2 ^ 16) (id v : Nat) (hv : v < 2 ^ 64) (s : State) :
    ((hv_set_vpreg E id v s).bind (hv_get_vpreg E id)).map Prod.fst = some v := by
  have hsucc := mock_succeeds E.toConsts upper E hmock rfl hst
  have hv1 : v < 18446744073709551616 := hv
  rw [hv_set_vpreg_of_succeed hsucc, Option.some_bind, hv_get_vpreg_of_succeed hsucc]
  simp [vpreg_reply, hmock, mock_hypervisor, vpreg_get_call, vpreg_set_call, mock_stored,
    Nat.mod_eq_of_lt hv1]

/-- Claim C7 at the guest OS id register and the value `0xFFFFFFFFFFFFFFFF`. -/
theorem vpreg_round_trip_witness :
    ((hv_set_vpreg mock_env 0x90002 0xFFFFFFFFFFFFFFFF State.boot).bind
      (hv_get_vpreg mock_env 0x90002)).map Prod.fst = some 0xFFFFFFFFFFFFFFFF :=
  vpreg_round_trip mock_env 0 rfl (by decide) 0x90002 0xFFFFFFFFFFFFFFFF (by decide) State.boot

/-! ## The initialized latch -/

/-- The second half of `hv_cpu_init`: what it returns and what it leaves in the VP index table and in `hv_max_vp_index`. -/
theorem hv_cpu_init_vp_frame {E : Env} {cpu v : Nat} {s : State} {r : Int × State}
    (h : hv_cpu_init_vp E cpu v s = some r) :
    r.1 = 0 ∧ r.2.hyperv_initialized = s.hyperv_initialized
    ∧ r.2.hv_max_vp_index = (if v > s.hv_max_vp_index then v % 2 ^ 32 else s.hv_max_vp_index)
    ∧ r.2.hv_vp_index.bind (fun tbl => tbl[cpu]?) = some (v % 2 ^ 32) := by
  unfold hv_cpu_init_vp at h
  split at h
  · exact absurd h (by simp)
  next tbl htbl =>
    split at h
    · exact absurd h (by simp)
    next hlen =>
      have := Option.some.inj h
      subst this
      refine ⟨rfl, rfl, rfl, ?_⟩
      simp [List.getElem?_set, Nat.lt_of_not_le hlen]

/-- What `hv_cpu_init` returns and leaves, by whether the page allocation fails. -/
theorem hv_cpu_init_frame {E : Env} {cpu : Nat} {s : State} {r : Int × State}
    (h : hv_cpu_init E cpu s = some r) :
    r.2.hyperv_initialized = s.hyperv_initialized
    ∧ (E.get_free_page s.page_requests = 0 →
        r.1 = -(E.ENOMEM : Int) ∧ r.2.hv_max_vp_index = s.hv_max_vp_index)
    ∧ (E.get_free_page s.page_requests ≠ 0 →
        r.1 = 0
        ∧ r.2.hv_max_vp_index =
            (if vp_index_reply E s > s.hv_max_vp_index then vp_index_reply E s % 2 ^ 32
             else s.hv_max_vp_index)
        ∧ r.2.hv_vp_index.bind (fun tbl => tbl[cpu]?) = some (vp_index_reply E s % 2 ^ 32)) := by
  unfold hv_cpu_init at h
  split at h
  next h0 =>
    have := Option.some.inj h
    subst this
    exact ⟨rfl, fun _ => ⟨rfl, rfl⟩, fun hne => absurd h0 hne⟩
  next h0 =>
    split at h
    · exact absurd h (by simp)
    next slots hslots =>
      split at h
      · exact absurd h (by simp)
      · split at h
        · exact absurd h (by simp)
        next v s1 hget =>
          obtain ⟨hv, hs1⟩ := hv_get_vpreg_some hget
          obtain ⟨f1, f2, f3, f4⟩ := hv_cpu_init_vp_frame h
          subst hs1
          refine ⟨f2, fun he => absurd he h0, fun _ => ⟨f1, ?_, ?_⟩⟩
          · rw [f3, hv]; rfl
          · rw [f4, hv]; rfl

/-- The function `hv_cpu_die` leaves the flag and `hv_max_vp_index` alone. -/
theorem hv_cpu_die_frame {cpu : Nat} {s : State} {r : Int × State}
    (h : hv_cpu_die cpu s = some r) :
    r.2.hyperv_initialized = s.hyperv_initialized
    ∧ r.2.hv_max_vp_index = s.hv_max_vp_index := by
  unfold hv_cpu_die at h
  split at h
  · exact absurd h (by simp)
  · split at h
    · exact absurd h (by simp)
    · have := Option.some.inj h
      subst this
      unfold free_page
      split <;> exact ⟨rfl, rfl⟩

/-- The function `hv_set_vpreg` leaves the flag alone. -/
theorem hv_set_vpreg_initialized {E : Env} {msr value : Nat} {s s1 : State}
    (h : hv_set_vpreg E msr value s = some s1) :
    s1.hyperv_initialized = s.hyperv_initialized := by
  rw [hv_set_vpreg_some h]

/-- The refill leaves the flag alone. -/
theorem hv_refill_initialized {E : Env} {s s1 : State} (h : hv_refill E s = some s1) :
    s1.hyperv_initialized = s.hyperv_initialized := by
  unfold hv_refill at h
  split at h
  · split at h
    · exact absurd h (by simp)
    · obtain ⟨fl, _, hfl⟩ := Option.map_eq_some'.mp h
      rw [← hfl]
  · rw [← Option.some.inj h]

/-- The function `hv_alloc_hyperv_page` leaves the flag alone. -/
theorem hv_alloc_hyperv_page_initialized {E : Env} {s : State} {r : Nat × State}
    (h : hv_alloc_hyperv_page E s = some r) :
    r.2.hyperv_initialized = s.hyperv_initialized := by
  unfold hv_alloc_hyperv_page at h
  split at h
  · exact absurd h (by simp)
  next s1 h1 =>
    split at h
    · exact absurd h (by simp)
    · rw [← Option.some.inj h]
      exact (hv_refill_initialized h1 : s1.hyperv_initialized = s.hyperv_initialized)

/-- The six writes of `hyperv_report_panic` leave the flag alone. -/
theorem hyperv_report_panic_writes_initialized {E : Env} {regs : pt_regs} {err : Int}
    {g : Nat} {s s1 : State} (h : hyperv_report_panic_writes E regs err g s = some s1) :
    s1.hyperv_initialized = s.hyperv_initialized := by
  unfold hyperv_report_panic_writes at h
  obtain ⟨a0, h0, h⟩ := Option.bind_eq_some.mp h
  obtain ⟨a1, h1, h⟩ := Option.bind_eq_some.mp h
  obtain ⟨a2, h2, h⟩ := Option.bind_eq_some.mp h
  obtain ⟨a3, h3, h⟩ := Option.bind_eq_some.mp h
  obtain ⟨a4, h4, h⟩ := Option.bind_eq_some.mp h
  rw [hv_set_vpreg_initialized h, hv_set_vpreg_initialized h4, hv_set_vpreg_initialized h3,
    hv_set_vpreg_initialized h2, hv_set_vpreg_initialized h1, hv_set_vpreg_initialized h0]

/-- The function `hyperv_report_panic` leaves the flag alone. -/
theorem hyperv_report_panic_initialized {E : Env} {regs : pt_regs} {err : Int}
    {in_die : Bool} {s s1 : State} (h : hyperv_report_panic E regs err in_die s = some s1) :
    s1.hyperv_initialized = s.hyperv_initialized := by
  unfold hyperv_report_panic at h
  split at h
  · rw [← Option.some.inj h]
  · split at h
    · rw [← Option.some.inj h]
    · split at h
      · exact absurd h (by simp)
      next g s2 hg =>
        rw [hyperv_report_panic_writes_initialized h, (hv_get_vpreg_some hg).2]

/-- The function `hyperv_report_panic_msg` leaves the flag alone. -/
theorem hyperv_report_panic_msg_initialized {E : Env} {pa size : Nat} {s s1 : State}
    (h : hyperv_report_panic_msg E pa size s = some s1) :
    s1.hyperv_initialized = s.hyperv_initialized := by
  unfold hyperv_report_panic_msg at h
  obtain ⟨a0, h0, h⟩ := Option.bind_eq_some.mp h
  obtain ⟨a1, h1, h⟩ := Option.bind_eq_some.mp h
  obtain ⟨a2, h2, h⟩ := Option.bind_eq_some.mp h
  obtain ⟨a3, h3, h⟩ := Option.bind_eq_some.mp h
  obtain ⟨a4, h4, h⟩ := Option.bind_eq_some.mp h
  rw [hv_set_vpreg_initialized h, hv_set_vpreg_initialized h4, hv_set_vpreg_initialized h3,
    hv_set_vpreg_initialized h2, hv_set_vpreg_initialized h1, hv_set_vpreg_initialized h0]

/-- No operation other than `hyperv_init` changes the flag. -/
theorem step_initialized {E : Env} {op : Op} {s s1 : State} (h : step E op s = some s1) :
    s1.hyperv_initialized = s.hyperv_initialized := by
  cases op with
  | cpu_init cpu =>
    obtain ⟨r, hr, e⟩ := Option.map_eq_some'.mp h
    rw [← e]; exact (hv_cpu_init_frame hr).1
  | cpu_die cpu =>
    obtain ⟨r, hr, e⟩ := Option.map_eq_some'.mp h
    rw [← e]; exact (hv_cpu_die_frame hr).1
  | alloc_hyperv_page =>
    obtain ⟨r, hr, e⟩ := Option.map_eq_some'.mp h
    rw [← e]; exact hv_alloc_hyperv_page_initialized hr
  | alloc_hyperv_zeroed_page =>
    obtain ⟨r, hr, e⟩ := Option.map_eq_some'.mp h
    rw [← e]; exact hv_alloc_hyperv_page_initialized hr
  | free_hyperv_page addr =>
    rw [← Option.some.inj h]
    unfold hv_free_hyperv_page
    split <;> rfl
  | do_hypercall control input output => rw [← Option.some.inj h]; rfl
  | do_fast_hypercall8 code input => rw [← Option.some.inj h]; rfl
  | set_vpreg msr value => exact hv_set_vpreg_initialized h
  | get_vpreg msr =>
    obtain ⟨r, hr, e⟩ := Option.map_eq_some'.mp h
    rw [← e, (hv_get_vpreg_some hr).2]
  | get_vpreg_128 msr =>
    obtain ⟨r, hr, e⟩ := Option.map_eq_some'.mp h
    rw [← e, (hv_get_vpreg_128_some hr).2]
  | cleanup => exact hv_set_vpreg_initialized h
  | report_panic regs err in_die => exact hyperv_report_panic_initialized h
  | report_panic_msg pa size => exact hyperv_report_panic_msg_initialized h

/-- Claim C9.  With positive errno constants: `hv_is_hyperv_initialized()` is false
in the boot state; a `hyperv_init` run started with the flag clear returns a
negative value or 0, a negative value exactly when the signature is absent, the
VP index table cannot be allocated or the hotplug registration fails, and then
the flag is still clear; when it returns 0 the flag is set; and once the flag
is set, every other operation of the file that returns leaves it set. -/
theorem initialized_latch (E : Env) (hENOMEM : 0 < E.ENOMEM) (hEINVAL : 0 < E.EINVAL) :
    hv_is_hyperv_initialized State.boot = false
    ∧ (∀ (B : BootInput) (s s1 : State) (ret : Int),
        hv_is_hyperv_initialized s = false → hyperv_init E B s = some (ret, s1) →
          (ret < 0 ∨ ret = 0)
          ∧ (ret < 0 ↔ (strncmp B.hypervisor_id MsHyperV 8 ≠ 0 ∨ B.kmalloc_array_ok = false
                ∨ B.cpuhp_setup_state < 0))
          ∧ (ret < 0 → hv_is_hyperv_initialized s1 = false)
          ∧ (ret = 0 → hv_is_hyperv_initialized s1 = true))
    ∧ (∀ (op : Op) (s s1 : State),
        hv_is_hyperv_initialized s = true → step E op s = some s1 →
          hv_is_hyperv_initialized s1 = true) := by
  have hm : -(E.ENOMEM : Int) < 0 := by omega
  have hi : -(E.EINVAL : Int) < 0 := by omega
  refine ⟨rfl, ?_, ?_⟩
  · intro B s s1 ret hs hrun
    unfold hv_is_hyperv_initialized at hs ⊢
    by_cases hsig : strncmp B.hypervisor_id MsHyperV 8 = 0
    · obtain ⟨_, h | h | h⟩ := hyperv_init_alloc_flag (hyperv_init_some hsig hrun)
      · obtain ⟨h1, h2, h3, h4⟩ := h
        subst h1
        simp [h2, h3, h4, hsig]
      · obtain ⟨h1, h2, h3⟩ := h
        subst h1
        have hne : -(E.ENOMEM : Int) ≠ 0 := by omega
        simp [hm, hne, h2, h3, hs]
      · obtain ⟨h1, h2, h3, h4⟩ := h
        subst h1
        have hne : -(E.EINVAL : Int) ≠ 0 := by omega
        simp [hi, hne, h2, h4, hs]
    · unfold hyperv_init at hrun
      rw [if_pos hsig] at hrun
      have := Option.some.inj hrun
      simp only [Prod.mk.injEq] at this
      obtain ⟨h1, h2⟩ := this
      subst h1 h2
      have hne : -(E.EINVAL : Int) ≠ 0 := by omega
      simp [hi, hne, hsig, hs]
  · intro op s s1 hs hstep
    unfold hv_is_hyperv_initialized at hs ⊢
    rw [step_initialized hstep, hs]

/-- Claim C9 on a successful boot over `zero_env`. -/
theorem initialized_latch_witness :
    (0 < zero_env.ENOMEM ∧ 0 < zero_env.EINVAL)
    ∧ hyperv_init zero_env (boot_input 0) State.boot = some (0, booted)
    ∧ hv_is_hyperv_initialized State.boot = false
    ∧ hv_is_hyperv_initialized booted = true :=
  ⟨⟨by decide, by decide⟩, rfl,
    (initialized_latch zero_env (by decide) (by decide)).1,
    ((initialized_latch zero_env (by decide) (by decide)).2.1 (boot_input 0) State.boot booted 0
      rfl rfl).2.2.2 rfl⟩

/-! ## The highest VP index -/

/-- Claim C10 fails: with `hv_max_vp_index = 5` and a hypervisor that returns
`2 ^ 32` for the VP index register, a successful `hv_cpu_init` stores index 0
and lowers `hv_max_vp_index` to 0. -/
theorem max_vp_index_can_decrease :
    vp_index_reply wide_index_env one_cpu_state = 2 ^ 32
    ∧ one_cpu_state.hv_max_vp_index = 5
    ∧ (hv_cpu_init wide_index_env 0 one_cpu_state).map
        (fun r => (r.1, r.2.hv_vp_index, r.2.hv_max_vp_index)) = some (0, some [0], 0) := by
  decide

/-- Claim C10, amended.  A failed `hv_cpu_init` (no page) returns `-ENOMEM` and
leaves `hv_max_vp_index` unchanged.  A successful one returns 0, stores the
returned value narrowed to 32 bits in `hv_vp_index[cpu]`, and leaves
`hv_max_vp_index` at or above that stored index; when the returned value is
below `2 ^ 32` it also leaves `hv_max_vp_index` at or above its prior value.
And `hv_cpu_die` leaves it unchanged. -/
theorem max_vp_index_tracks (E : Env) (cpu : Nat) (s s1 : State) (ret : Int)
    (h : hv_cpu_init E cpu s = some (ret, s1)) :
    (E.get_free_page s.page_requests = 0 →
      ret = -(E.ENOMEM : Int) ∧ s1.hv_max_vp_index = s.hv_max_vp_index)
    ∧ (E.get_free_page s.page_requests ≠ 0 →
      ret = 0
      ∧ s1.hv_vp_index.bind (fun tbl => tbl[cpu]?) = some (vp_index_reply E s % 2 ^ 32)
      ∧ vp_index_reply E s % 2 ^ 32 ≤ s1.hv_max_vp_index
      ∧ (vp_index_reply E s < 2 ^ 32 → s.hv_max_vp_index ≤ s1.hv_max_vp_index))
    ∧ (∀ (t t1 : State) (r : Int), hv_cpu_die cpu t = some (r, t1) →
        t1.hv_max_vp_index = t.hv_max_vp_index) := by
  obtain ⟨_, h0, h1⟩ := hv_cpu_init_frame h
  refine ⟨h0, fun hne => ?_, fun t t1 r ht => (hv_cpu_die_frame ht).2⟩
  obtain ⟨e1, e2, e3⟩ := h1 hne
  refine ⟨e1, e3, ?_, ?_⟩
  · show _ ≤ s1.hv_max_vp_index
    have e2a : s1.hv_max_vp_index = _ := e2
    rw [e2a]
    split
    · exact le_refl _
    · have := Nat.mod_le (vp_index_reply E s) (2 ^ 32)
      omega
  · intro hlt
    have e2a : s1.hv_max_vp_index = _ := e2
    rw [e2a, Nat.mod_eq_of_lt hlt]
    split <;> omega

/-- Claim C10, amended, on CPU 0 with prior maximum 5 and returned index 7. -/
theorem max_vp_index_tracks_witness :
    hv_cpu_init index7_env 0 one_cpu_state = some (0, one_cpu_online)
    ∧ vp_index_reply index7_env one_cpu_state = 7
    ∧ one_cpu_state.hv_max_vp_index = 5
    ∧ one_cpu_online.hv_vp_index.bind (fun tbl => tbl[0]?) = some (7 % 2 ^ 32)
    ∧ 7 % 2 ^ 32 ≤ one_cpu_online.hv_max_vp_index
    ∧ 5 ≤ one_cpu_online.hv_max_vp_index :=
  have h := (max_vp_index_tracks index7_env 0 one_cpu_state one_cpu_online 0 rfl).2.1
    (by decide)
  ⟨rfl, rfl, rfl, h.2.1, h.2.2.1, h.2.2.2 (by decide)⟩

end HvInit
